import Mathlib

/-!
Verification of the movement / broad-phase collision / health pipeline of a
small Bevy game (sources: `move_system.rs`, `health_system.rs`, `hitbox.rs`,
`player.rs`, `parser.rs`, `map.rs`, `main.rs`).

Modelling conventions:
* Rust `f32` values are modelled as exact rationals `ℚ`; all constants in the
  sources are small decimal literals, so every computation the claims touch is
  exact.
* Rust `usize` is `Nat`; `x as usize` on an `f32` truncates toward zero and
  saturates at 0 for negative inputs, which for rationals equals
  `(Rat.floor x).toNat` (for `x ≥ 0` floor = truncation; for `x < 0` both give 0).
* Bevy ECS queries are modelled as lists of records in iteration order;
  entity ids are `Nat`.
* Rust panics (`expect`, `todo!()`) are modelled as `Except.error` / `Option.none`.
-/

namespace Rosiak

/-- 2-D vector of exact rationals, modelling `bevy::math::Vec2`. -/
structure Vec2 where
  x : ℚ
  y : ℚ
deriving DecidableEq, Repr

/-- 3-D vector, modelling `bevy::math::Vec3` (`Transform::translation`). -/
structure Vec3 where
  x : ℚ
  y : ℚ
  z : ℚ
deriving DecidableEq, Repr

def Vec2.zero : Vec2 := ⟨0, 0⟩

def Vec2.add (a b : Vec2) : Vec2 := ⟨a.x + b.x, a.y + b.y⟩

/-- `v * s` for a scalar `s` (componentwise, as in bevy). -/
def Vec2.scale (a : Vec2) (s : ℚ) : Vec2 := ⟨a.x * s, a.y * s⟩

/-- `Vec3::truncate`: drop the `z` component. -/
def Vec3.truncate (v : Vec3) : Vec2 := ⟨v.x, v.y⟩

/-- `Vec2::extend`: append a `z` component. -/
def Vec2.extend (v : Vec2) (z : ℚ) : Vec3 := ⟨v.x, v.y, z⟩

/- ===================== health_system.rs ===================== -/

/-- `health_system.rs`: `struct HealthData`. -/
structure HealthData where
  max_health : Nat
  current_health : Nat
deriving DecidableEq, Repr

/-- `health_system.rs`: `TakeDamageEvent { id, amount }`. -/
structure TakeDamageEvent where
  id : Nat
  amount : Nat
deriving DecidableEq, Repr

/-- `health_system.rs`: `HealEvent { id, amount }`. -/
structure HealEvent where
  id : Nat
  amount : Nat
deriving DecidableEq, Repr

/-- `health_system.rs`: `DeathEvent { id }`. -/
structure DeathEvent where
  id : Nat
deriving DecidableEq, Repr

/-- `HealthData::heal`: `current_health = min(max_health, current_health + amount)`. -/
def HealthData.heal (h : HealthData) (amount : Nat) : HealthData :=
  { h with current_health := min h.max_health (h.current_health + amount) }

/-- `HealthData::take_damage`: decreases health, second component is `true`
iff health goes to zero (`current_health <= amount`). The Rust method mutates
`&mut self` and returns the `bool`; here the updated record is returned
alongside it. -/
def HealthData.take_damage (h : HealthData) (amount : Nat) : HealthData × Bool :=
  if h.current_health ≤ amount then ({ h with current_health := 0 }, true)
  else ({ h with current_health := h.current_health - amount }, false)

/-- One heal-or-damage operation on a `HealthData` record
(the per-record effect of the two event kinds). -/
inductive HealthOp where
  | heal (amount : Nat)
  | damage (amount : Nat)
deriving DecidableEq, Repr

def HealthData.applyOp (h : HealthData) : HealthOp → HealthData
  | .heal a => h.heal a
  | .damage a => (h.take_damage a).1

def HealthData.applyOps (h : HealthData) (ops : List HealthOp) : HealthData :=
  ops.foldl HealthData.applyOp h

/-- The `Query<&mut HealthData>` of `health_system`, as an association list
keyed by entity id (ECS ids are unique). -/
def HealthEntities := List (Nat × HealthData)

/-- `entities.get_mut(id)`, read-only part: first record with the given id. -/
def lookupHealth (es : List (Nat × HealthData)) (id : Nat) : Option HealthData :=
  match es.find? (fun p => p.1 == id) with
  | some p => some p.2
  | none => none

/-- `entities.get_mut(id)`, write part: update the record with the given id. -/
def updateHealth (es : List (Nat × HealthData)) (id : Nat)
    (f : HealthData → HealthData) : List (Nat × HealthData) :=
  es.map (fun p => if p.1 = id then (p.1, f p.2) else p)

/-- `dead_entities.insert(id)`: the Rust `HashSet` is modelled as a list with
insert-if-absent (first-insertion order; the claims proved below only concern
membership and multiplicity, which do not depend on the set's iteration
order). -/
def insertDead (dead : List Nat) (id : Nat) : List Nat :=
  if id ∈ dead then dead else dead ++ [id]

/-- The body of the damage loop of `health_system` for one `TakeDamageEvent`:
look the entity up (absent ids are skipped), apply `take_damage`, and insert
the id into the dead set when it reported death. -/
def damageStep (st : List (Nat × HealthData) × List Nat) (ev : TakeDamageEvent) :
    List (Nat × HealthData) × List Nat :=
  match lookupHealth st.1 ev.id with
  | none => st
  | some h =>
    (updateHealth st.1 ev.id (fun _ => (h.take_damage ev.amount).1),
     if (h.take_damage ev.amount).2 then insertDead st.2 ev.id else st.2)

/-- The heal loop of `health_system`: each `HealEvent` whose entity exists
has `heal` applied to it. -/
def applyHeals (heals : List HealEvent) (entities : List (Nat × HealthData)) :
    List (Nat × HealthData) :=
  heals.foldl
    (fun es ev =>
      match lookupHealth es ev.id with
      | none => es
      | some _ => updateHealth es ev.id (fun h => h.heal ev.amount)) entities

/-- `health_system.rs::health_system`: apply all `HealEvent`s, then all
`TakeDamageEvent`s collecting a deduplicated set of entities whose health
reached zero, then emit one `DeathEvent` per such entity. Returns the updated
entity records and the emitted `DeathEvent`s. -/
def health_system (heals : List HealEvent) (damages : List TakeDamageEvent)
    (entities : List (Nat × HealthData)) :
    List (Nat × HealthData) × List DeathEvent :=
  let st := damages.foldl damageStep (applyHeals heals entities, [])
  (st.1, st.2.map DeathEvent.mk)

/- ===================== move_system.rs: clear phase ===================== -/

/-- `move_system.rs::clear_velocity_vector`: every `VelocityVector` matched by
the query (modelled as an id-keyed list) is set to `Vec2::ZERO`. -/
def clear_velocity_vector (vectors : List (Nat × Vec2)) : List (Nat × Vec2) :=
  vectors.map (fun p => (p.1, Vec2.zero))

/- ===================== hitbox.rs ===================== -/

/-- `hitbox.rs`: `enum Hitbox`. -/
inductive Hitbox where
  | Rectangle (dim : Vec2)
  | Circle (r : ℚ)
deriving DecidableEq, Repr

/-- `bevy::sprite::collide_aabb::collide` (the only overlap primitive used):
with `a_min = a_pos - a_size/2`, `a_max = a_pos + a_size/2` (likewise for `b`),
the rectangles collide iff
`a_min.x < b_max.x && a_max.x > b_min.x && a_min.y < b_max.y && a_max.y > b_min.y`
(strict inequalities: touching edges do not collide). The `z` components passed
in the source are unused by the intersection test. -/
def collide (a_pos a_size b_pos b_size : Vec2) : Bool :=
  decide (a_pos.x - a_size.x / 2 < b_pos.x + b_size.x / 2) &&
  decide (a_pos.x + a_size.x / 2 > b_pos.x - b_size.x / 2) &&
  decide (a_pos.y - a_size.y / 2 < b_pos.y + b_size.y / 2) &&
  decide (a_pos.y + a_size.y / 2 > b_pos.y - b_size.y / 2)

/-- `Hitbox::check_collision`. Rectangle×Rectangle is total and returns
`collide(..).is_some()` (the `collide` Bool above). The `Circle` branches are
`todo!()` panics in the source, modelled as `none`; the `(Circle, Rectangle)`
branch delegates to the swapped `(Rectangle, Circle)` branch, which is itself
a `todo!()`, so it is `none` as well. -/
def Hitbox.check_collision (x_hitbox : Hitbox) (x_position : Vec2)
    (y_hitbox : Hitbox) (y_position : Vec2) : Option Bool :=
  match x_hitbox, y_hitbox with
  | .Rectangle dim_x, .Rectangle dim_y =>
      some (collide x_position dim_x y_position dim_y)
  | .Rectangle _, .Circle _ => none
  | .Circle _, .Circle _ => none
  | .Circle _, .Rectangle _ => none

/- ===================== move_system.rs: types and policy ===================== -/

/-- `move_system.rs`: `enum MoveObjectType`. -/
inductive MoveObjectType where
  | Obstacle
  | Floor
  | Player
  | Enemy
  | PlayerBullet
  | EnemyBullet
deriving DecidableEq, Repr

/-- `move_system.rs::ignore_collision`: collision has no effect and no event
is sent for these type pairs (match arms in source order). -/
def ignore_collision (type_1 type_2 : MoveObjectType) : Bool :=
  match type_1, type_2 with
  | .PlayerBullet, .PlayerBullet => false
  | .Player, .PlayerBullet | .PlayerBullet, .Player => true
  | .Player, .Floor | .Floor, .Player => true
  | .Enemy, .Floor | .Floor, .Enemy => true
  | .PlayerBullet, .Floor | .Floor, .PlayerBullet => true
  | .Enemy, .EnemyBullet | .EnemyBullet, .Enemy => true
  | .EnemyBullet, .Floor | .Floor, .EnemyBullet => true
  | .Enemy, .Enemy => true
  | _, _ => false

/-- `move_system.rs::allow_overlap`: the single match arm is `_ => false`. -/
def allow_overlap (_type_1 _type_2 : MoveObjectType) : Bool := false

/-- `move_system.rs`: `struct CollisionEvent`. -/
structure CollisionEvent where
  object_id : Nat
  object_type : MoveObjectType
  collided_with_id : Nat
  collided_with_type : MoveObjectType
deriving DecidableEq, Repr

/- ===================== move_system.rs: the spatial grid ===================== -/

/-- `main.rs`: `const WINDOW_WIDTH: f32 = 1000.0`. -/
def WINDOW_WIDTH : ℚ := 1000

/-- `main.rs`: `const WINDOW_HEIGHT: f32 = 600.0`. -/
def WINDOW_HEIGHT : ℚ := 600

/-- `move_system.rs`: `const ZONE_SIZE: f32 = 100.`. -/
def ZONE_SIZE : ℚ := 100

/-- Rust `x as usize` on a non-negative-or-saturating float cast: truncation
toward zero, saturating at 0 for negative inputs. For rationals this equals
`Int.toNat ∘ Rat.floor` (floor = truncation on non-negatives; both give 0 on
negatives). -/
def rustCastUsize (q : ℚ) : Nat := q.floor.toNat

/-- `const ZONES_HORIZONTALLY: usize = (WINDOW_WIDTH / ZONE_SIZE) as usize + 1` (= 11). -/
def ZONES_HORIZONTALLY : Nat := rustCastUsize (WINDOW_WIDTH / ZONE_SIZE) + 1

/-- `const ZONES_VERTICALLY: usize = (WINDOW_HEIGHT / ZONE_SIZE) as usize + 1` (= 7). -/
def ZONES_VERTICALLY : Nat := rustCastUsize (WINDOW_HEIGHT / ZONE_SIZE) + 1

/-- `move_system.rs::get_zone`. -/
def get_zone (position : Vec2) : Nat × Nat :=
  let x := position.x + WINDOW_WIDTH / 2
  let y := position.y + WINDOW_HEIGHT / 2
  let x := rustCastUsize (x / ZONE_SIZE)
  let y := rustCastUsize (y / ZONE_SIZE)
  (min x (ZONES_HORIZONTALLY - 1), min y (ZONES_VERTICALLY - 1))

/-- One row of `move_system`'s query
`(&mut Transform, &Hitbox, &MoveObjectType, Option<&VelocityVector>, Entity)`. -/
structure MoveObj where
  translation : Vec3
  hitbox : Hitbox
  otype : MoveObjectType
  velocity : Option Vec2
  id : Nat
deriving DecidableEq, Repr

/-- `current_position`: `object.0.translation.truncate()`. -/
def current_position (o : MoveObj) : Vec2 := o.translation.truncate

/-- `future_position`: `current_position + velocity.0 * delta_time` when the
entity has a `VelocityVector`, else the current position. -/
def future_position (dt : ℚ) (o : MoveObj) : Vec2 :=
  match o.velocity with
  | some v => (current_position o).add (v.scale dt)
  | none => current_position o

/-- The contents of grid cell `c` after the bucketing loop: the non-`Floor`
entities (in query iteration order) whose `get_zone(current_position)` is `c`.
The imperative loop pushes each such object onto `zones[x][y]` in iteration
order, so each cell's vector is exactly this filtered subsequence. -/
def zone_objs (objs : List MoveObj) (c : Nat × Nat) : List MoveObj :=
  (objs.filter (fun o => o.otype ≠ MoveObjectType.Floor)).filter
    (fun o => get_zone (current_position o) = c)

/-- `bordering_zones` built for cell `(i, j)`: among the offsets
`[(1,0),(0,1),(1,1)]`, those whose target stays inside the grid, in that
order. -/
def bordering_zones (c : Nat × Nat) : List (Nat × Nat) :=
  [(1, 0), (0, 1), (1, 1)].filterMap (fun d =>
    let p := (c.1 + d.1, c.2 + d.2)
    if p.1 < ZONES_HORIZONTALLY ∧ p.2 < ZONES_VERTICALLY then some p else none)

/-- All grid cells in sweep order (`i` outer over `0..ZONES_HORIZONTALLY`,
`j` inner over `0..ZONES_VERTICALLY`). -/
def all_cells : List (Nat × Nat) :=
  (List.range ZONES_HORIZONTALLY).flatMap (fun i =>
    (List.range ZONES_VERTICALLY).map (fun j => (i, j)))

/-- The ordered pairs compared by the inner loops for one cell: for each index
`i` into the cell's vector (`obj1 = zc[i]`), the partners are
`rest_of_current = zc[(i+1)..]` chained with all elements of the bordering
zones (`other_zones`), in that order. -/
def forward_pairs : List MoveObj → List MoveObj → List (MoveObj × MoveObj)
  | [], _ => []
  | a :: rest, others =>
      (rest ++ others).map (fun b => (a, b)) ++ forward_pairs rest others

/-- All ordered pairs the pairwise check of `move_system` compares in one
tick, in comparison order. -/
def cell_pairs (objs : List MoveObj) (c : Nat × Nat) : List (MoveObj × MoveObj) :=
  forward_pairs (zone_objs objs c) ((bordering_zones c).flatMap (zone_objs objs))

def visited_pairs (objs : List MoveObj) : List (MoveObj × MoveObj) :=
  all_cells.flatMap (cell_pairs objs)

/-- The detection condition of the pairwise check:
`!ignore_collision(first_type, second_type) && Hitbox::check_collision(...)`
evaluated at the two *future* positions. `&&` short-circuits, so an ignored
pair never reaches the (possibly panicking) shape test; for the shapes the
game ever builds (rectangles only) `check_collision` is `some _`, and the
`getD false` default is never exercised. -/
def collision_detected (dt : ℚ) (a b : MoveObj) : Bool :=
  !ignore_collision a.otype b.otype &&
    (Hitbox.check_collision a.hitbox (future_position dt a)
      b.hitbox (future_position dt b)).getD false

/-- The two directional events sent for one detected collision. -/
def pair_events (a b : MoveObj) : List CollisionEvent :=
  [⟨a.id, a.otype, b.id, b.otype⟩, ⟨b.id, b.otype, a.id, a.otype⟩]

/-- All `CollisionEvent`s sent by `move_system` in one tick, in send order.
During the pairwise loop the only mutable state is the per-slot `collision`
flag, which is never read back by the loop, so the event stream is exactly the
per-pair events concatenated in visit order. -/
def collision_events (dt : ℚ) (objs : List MoveObj) : List CollisionEvent :=
  (visited_pairs objs).flatMap (fun p =>
    if collision_detected dt p.1 p.2 then pair_events p.1 p.2 else [])

/-- Whether an entity's `collision` flag is set at the end of the pairwise
loop: some visited pair containing it was detected and not `allow_overlap`ed
(flags are only ever set to `true`, so the final value is this disjunction). -/
def blocked (dt : ℚ) (objs : List MoveObj) (o : MoveObj) : Bool :=
  (visited_pairs objs).any (fun p =>
    collision_detected dt p.1 p.2 && !allow_overlap p.1.otype p.2.otype &&
      (decide (p.1 = o) || decide (p.2 = o)))

/-- The final movement loop, per entity: `Floor` entities were never put into
a zone, so their transforms are untouched; a zoned entity whose flag is unset
gets `translation = fut_pos.extend(translation.z)`, a flagged one is left
unchanged. -/
def moved_obj (dt : ℚ) (objs : List MoveObj) (o : MoveObj) : MoveObj :=
  if o.otype = MoveObjectType.Floor then o
  else if blocked dt objs o then o
  else { o with translation := (future_position dt o).extend o.translation.z }

/-- `move_system.rs::move_system`: final object states (per entity; list
order follows the input query order rather than the zone-flattening order, a
presentation choice only since updates are per-entity) together with the sent
`CollisionEvent`s. -/
def move_system (dt : ℚ) (objs : List MoveObj) :
    List MoveObj × List CollisionEvent :=
  (objs.map (moved_obj dt objs), collision_events dt objs)

/- ===================== player.rs ===================== -/

/-- `player.rs::player_takes_damage`: for each `CollisionEvent`, if
`object_id` is a player and `collided_with_id` is in the `With<BulletMarker>`
query (player-fired bullets) — or else if `collided_with_id` is in the
`With<EnemyMarker>` query — a `TakeDamageEvent { id: player, amount: 1 }` is
sent. The three queries are modelled as the lists of entity ids they match. -/
def player_takes_damage (events : List CollisionEvent)
    (players enemies bullets : List Nat) : List TakeDamageEvent :=
  events.flatMap (fun c =>
    if c.object_id ∈ players ∧ c.collided_with_id ∈ bullets then
      [⟨c.object_id, 1⟩]
    else if c.object_id ∈ players ∧ c.collided_with_id ∈ enemies then
      [⟨c.object_id, 1⟩]
    else [])

/- ===================== parser.rs ===================== -/

/-- `common.rs`: `struct Position(pub f32, pub f32)`. -/
structure Position where
  fst : ℚ
  snd : ℚ
deriving DecidableEq, Repr

/-- `parser.rs`: `struct ParsedEntity`. -/
structure ParsedEntity where
  move_type : MoveObjectType
  position : Position
  hitbox : Hitbox
deriving DecidableEq, Repr

/-- `parser.rs`: `struct Parser { entities: Vec<ParsedEntity> }`. -/
structure Parser where
  entities : List ParsedEntity
deriving DecidableEq, Repr

/-- Outcome of `fs::read_to_string(filename)` for the save file of a map id:
either the file's contents or an I/O error. -/
inductive FsRead where
  | ok (contents : String)
  | err (msg : String)
deriving DecidableEq, Repr

/-- `parser.rs::Parser::new`. The doc comment in the source reads "Parses file
written in JSON format, return None if path or content is invalid", but the
body runs `fs::read_to_string(filename).expect("Something went wrong reading
the file")`, so an unreadable path *panics* (modelled as `Except.error` with
the `expect` message) instead of returning `None`; only malformed content
(`serde_json::from_str` failure, abstracted as the `parse` parameter
returning `none`) takes the reported-and-`None` path. -/
def Parser.new (read : FsRead) (parse : String → Option (List ParsedEntity)) :
    Except String (Option Parser) :=
  match read with
  | .err _ => .error "Something went wrong reading the file"
  | .ok contents =>
    match parse contents with
    | some val => .ok (some ⟨val⟩)
    | none => .ok none

/- ============ concrete configurations used by counterexamples/witnesses ============ -/

/-- C1 counterexample, first entity: a `Player`-typed 30×30 box at
`(-401, -199)`; its current position buckets into grid cell `(0, 1)`. -/
def c1A : MoveObj := ⟨⟨-401, -199, 1⟩, .Rectangle ⟨30, 30⟩, .Player, none, 1⟩

/-- C1 counterexample, second entity: an `Enemy`-typed 30×30 box at
`(-399, -201)`; its current position buckets into the anti-diagonally
adjacent cell `(1, 0)`. The two boxes overlap (centre distance `(2, 2)`). -/
def c1B : MoveObj := ⟨⟨-399, -201, 1⟩, .Rectangle ⟨30, 30⟩, .Enemy, none, 2⟩

/-- C1 witness: a `Player` at the origin. -/
def c1WA : MoveObj := ⟨⟨0, 0, 1⟩, .Rectangle ⟨30, 30⟩, .Player, none, 1⟩

/-- C1 witness: an `Enemy` near the origin (same grid cell `(5, 3)`). -/
def c1WB : MoveObj := ⟨⟨1, 1, 1⟩, .Rectangle ⟨30, 30⟩, .Enemy, none, 2⟩

/-- C2 counterexample: a `Player` at the origin moving right at 100 units/s;
with `dt = 1` its projected position `(100, 0)` lies in cell `(6, 3)` while
its current position lies in cell `(5, 3)`. -/
def c2E : MoveObj := ⟨⟨0, 0, 1⟩, .Rectangle ⟨30, 30⟩, .Player, some ⟨100, 0⟩, 7⟩

/-- C3 counterexample: like `c1A` but moving right at 10 units/s, so that the
(unsuppressed) position advance is observable. -/
def c3A : MoveObj := ⟨⟨-401, -199, 1⟩, .Rectangle ⟨30, 30⟩, .Player, some ⟨10, 0⟩, 1⟩

/-- C3 counterexample: overlapping `Enemy` in the anti-diagonal cell. -/
def c3B : MoveObj := ⟨⟨-399, -201, 1⟩, .Rectangle ⟨30, 30⟩, .Enemy, none, 2⟩

/-- C3 witness: a moving `Player` at the origin. -/
def c3WA : MoveObj := ⟨⟨0, 0, 1⟩, .Rectangle ⟨30, 30⟩, .Player, some ⟨10, 0⟩, 1⟩

/-- C3 witness: an overlapping `Enemy` in the same grid cell. -/
def c3WB : MoveObj := ⟨⟨5, 5, 1⟩, .Rectangle ⟨30, 30⟩, .Enemy, none, 2⟩

/-- C5 witness: a `PlayerBullet` at the origin. -/
def c5WA : MoveObj := ⟨⟨0, 0, 2⟩, .Rectangle ⟨7, 25⟩, .PlayerBullet, some ⟨0, 5⟩, 3⟩

/-- C5 witness: an overlapping `Enemy` in the same grid cell. -/
def c5WB : MoveObj := ⟨⟨4, 4, 1⟩, .Rectangle ⟨30, 30⟩, .Enemy, none, 4⟩

/-- Scenario B (C7): the Player at `(0, 0)` with a 30×30 hitbox. -/
def c7P : MoveObj := ⟨⟨0, 0, 1⟩, .Rectangle ⟨30, 30⟩, .Player, some ⟨0, 0⟩, 1⟩

/-- Scenario B (C7): the enemy projectile at `(25, 0)`, 5×5 hitbox, velocity
`(-50, 0)`. -/
def c7B : MoveObj := ⟨⟨25, 0, 2⟩, .Rectangle ⟨5, 5⟩, .EnemyBullet, some ⟨-50, 0⟩, 2⟩

/- ===================== general lemmas about the grid ===================== -/

theorem rustCastUsize_def (q : ℚ) : rustCastUsize q = (⌊q⌋).toNat := rfl

theorem ZONES_HORIZONTALLY_eq : ZONES_HORIZONTALLY = 11 := by
  norm_num [ZONES_HORIZONTALLY, rustCastUsize_def, WINDOW_WIDTH, ZONE_SIZE]
  decide

theorem ZONES_VERTICALLY_eq : ZONES_VERTICALLY = 7 := by
  norm_num [ZONES_VERTICALLY, rustCastUsize_def, WINDOW_HEIGHT, ZONE_SIZE]
  decide

theorem mem_zone_objs {objs : List MoveObj} {c : Nat × Nat} {o : MoveObj} :
    o ∈ zone_objs objs c ↔
      o ∈ objs ∧ o.otype ≠ MoveObjectType.Floor ∧ get_zone (current_position o) = c := by
  simp only [zone_objs, List.mem_filter, decide_eq_true_eq, ne_eq]
  tauto

theorem zone_objs_nil (c : Nat × Nat) : zone_objs [] c = [] := rfl

theorem zone_objs_cons (o : MoveObj) (objs : List MoveObj) (c : Nat × Nat) :
    zone_objs (o :: objs) c =
      (if o.otype ≠ MoveObjectType.Floor ∧ get_zone (current_position o) = c
       then [o] else []) ++ zone_objs objs c := by
  by_cases h1 : o.otype = MoveObjectType.Floor <;>
    by_cases h2 : get_zone (current_position o) = c <;>
      simp [zone_objs, h1, h2]

theorem forward_pairs_nil (others : List MoveObj) : forward_pairs [] others = [] := rfl

theorem forward_pairs_single (a : MoveObj) (others : List MoveObj) :
    forward_pairs [a] others = others.map (fun b => (a, b)) := by
  simp [forward_pairs]

theorem fst_mem_of_mem_forward_pairs {xs others : List MoveObj} {p : MoveObj × MoveObj}
    (hp : p ∈ forward_pairs xs others) : p.1 ∈ xs ∧ (p.2 ∈ xs ∨ p.2 ∈ others) := by
  induction xs with
  | nil => simp [forward_pairs] at hp
  | cons x rest ih =>
    rw [forward_pairs, List.mem_append] at hp
    rcases hp with hp | hp
    · rcases List.mem_map.mp hp with ⟨b, hb, rfl⟩
      rcases List.mem_append.mp hb with hb | hb
      · exact ⟨List.mem_cons_self x rest, Or.inl (List.mem_cons_of_mem x hb)⟩
      · exact ⟨List.mem_cons_self x rest, Or.inr hb⟩
    · rcases ih hp with ⟨h1, h2⟩
      exact ⟨List.mem_cons_of_mem x h1,
        h2.imp (List.mem_cons_of_mem x) id⟩

theorem mem_forward_pairs_of_mem_others {xs others : List MoveObj} {a b : MoveObj}
    (ha : a ∈ xs) (hb : b ∈ others) : (a, b) ∈ forward_pairs xs others := by
  induction xs with
  | nil => simp at ha
  | cons x rest ih =>
    rw [forward_pairs, List.mem_append]
    rcases List.mem_cons.mp ha with rfl | ha
    · exact Or.inl (List.mem_map.mpr ⟨b, List.mem_append.mpr (Or.inr hb), rfl⟩)
    · exact Or.inr (ih ha)

theorem mem_forward_pairs_of_mem_same {xs others : List MoveObj} {a b : MoveObj}
    (ha : a ∈ xs) (hb : b ∈ xs) (hne : a ≠ b) :
    (a, b) ∈ forward_pairs xs others ∨ (b, a) ∈ forward_pairs xs others := by
  induction xs with
  | nil => simp at ha
  | cons x rest ih =>
    by_cases hax : a = x
    · subst hax
      have hb' : b ∈ rest := by
        rcases List.mem_cons.mp hb with h | h
        · exact (hne h.symm).elim
        · exact h
      refine Or.inl ?_
      rw [forward_pairs, List.mem_append]
      exact Or.inl (List.mem_map.mpr ⟨b, List.mem_append.mpr (Or.inl hb'), rfl⟩)
    · by_cases hbx : b = x
      · subst hbx
        have ha' : a ∈ rest := by
          rcases List.mem_cons.mp ha with h | h
          · exact (hax h).elim
          · exact h
        refine Or.inr ?_
        rw [forward_pairs, List.mem_append]
        exact Or.inl (List.mem_map.mpr ⟨a, List.mem_append.mpr (Or.inl ha'), rfl⟩)
      · have ha' : a ∈ rest := by
          rcases List.mem_cons.mp ha with h | h
          · exact (hax h).elim
          · exact h
        have hb' : b ∈ rest := by
          rcases List.mem_cons.mp hb with h | h
          · exact (hbx h).elim
          · exact h
        rcases ih ha' hb' with h | h
        · refine Or.inl ?_
          rw [forward_pairs, List.mem_append]
          exact Or.inr h
        · refine Or.inr ?_
          rw [forward_pairs, List.mem_append]
          exact Or.inr h

theorem mem_all_cells_iff (c : Nat × Nat) :
    c ∈ all_cells ↔ c.1 < ZONES_HORIZONTALLY ∧ c.2 < ZONES_VERTICALLY := by
  cases c with
  | mk i j =>
    simp only [all_cells, List.mem_flatMap, List.mem_map, List.mem_range]
    constructor
    · rintro ⟨i', hi', j', hj', h⟩
      cases h
      exact ⟨hi', hj'⟩
    · rintro ⟨hi, hj⟩
      exact ⟨i, hi, j, hj, rfl⟩

theorem get_zone_mem_all_cells (v : Vec2) : get_zone v ∈ all_cells := by
  rw [mem_all_cells_iff]
  have h1 : (get_zone v).1 = min (rustCastUsize ((v.x + WINDOW_WIDTH / 2) / ZONE_SIZE))
      (ZONES_HORIZONTALLY - 1) := rfl
  have h2 : (get_zone v).2 = min (rustCastUsize ((v.y + WINDOW_HEIGHT / 2) / ZONE_SIZE))
      (ZONES_VERTICALLY - 1) := rfl
  constructor
  · rw [h1, ZONES_HORIZONTALLY_eq]
    have := Nat.min_le_right (rustCastUsize ((v.x + WINDOW_WIDTH / 2) / ZONE_SIZE)) (11 - 1)
    omega
  · rw [h2, ZONES_VERTICALLY_eq]
    have := Nat.min_le_right (rustCastUsize ((v.y + WINDOW_HEIGHT / 2) / ZONE_SIZE)) (7 - 1)
    omega

theorem cell_pairs_subset_visited {objs : List MoveObj} {c : Nat × Nat}
    (hc : c ∈ all_cells) {p : MoveObj × MoveObj} (hp : p ∈ cell_pairs objs c) :
    p ∈ visited_pairs objs :=
  List.mem_flatMap.mpr ⟨c, hc, hp⟩

theorem mem_objs_of_mem_visited_pairs {objs : List MoveObj} {p : MoveObj × MoveObj}
    (hp : p ∈ visited_pairs objs) :
    (p.1 ∈ objs ∧ p.1.otype ≠ MoveObjectType.Floor) ∧
      (p.2 ∈ objs ∧ p.2.otype ≠ MoveObjectType.Floor) := by
  rcases List.mem_flatMap.mp hp with ⟨c, _, hpc⟩
  rcases fst_mem_of_mem_forward_pairs hpc with ⟨h1, h2⟩
  have h1' := mem_zone_objs.mp h1
  refine ⟨⟨h1'.1, h1'.2.1⟩, ?_⟩
  rcases h2 with h2 | h2
  · have h2' := mem_zone_objs.mp h2
    exact ⟨h2'.1, h2'.2.1⟩
  · rcases List.mem_flatMap.mp h2 with ⟨c', _, h2c⟩
    have h2' := mem_zone_objs.mp h2c
    exact ⟨h2'.1, h2'.2.1⟩

/- ============ symmetry of the policy table and of the overlap test ============ -/

theorem ignore_collision_symm (t1 t2 : MoveObjectType) :
    ignore_collision t1 t2 = ignore_collision t2 t1 := by
  cases t1 <;> cases t2 <;> rfl

theorem collide_eq_true_iff {a_pos a_size b_pos b_size : Vec2} :
    collide a_pos a_size b_pos b_size = true ↔
      (a_pos.x - a_size.x / 2 < b_pos.x + b_size.x / 2 ∧
       a_pos.x + a_size.x / 2 > b_pos.x - b_size.x / 2 ∧
       a_pos.y - a_size.y / 2 < b_pos.y + b_size.y / 2 ∧
       a_pos.y + a_size.y / 2 > b_pos.y - b_size.y / 2) := by
  simp [collide, and_assoc]

theorem collide_symm (a_pos a_size b_pos b_size : Vec2) :
    collide a_pos a_size b_pos b_size = collide b_pos b_size a_pos a_size := by
  rw [Bool.eq_iff_iff, collide_eq_true_iff, collide_eq_true_iff]
  constructor <;> rintro ⟨h1, h2, h3, h4⟩ <;> exact ⟨h2, h1, h4, h3⟩

theorem check_collision_symm (xh : Hitbox) (xp : Vec2) (yh : Hitbox) (yp : Vec2) :
    Hitbox.check_collision xh xp yh yp = Hitbox.check_collision yh yp xh xp := by
  cases xh <;> cases yh <;> simp [Hitbox.check_collision] <;> rw [collide_symm]

theorem collision_detected_symm (dt : ℚ) (a b : MoveObj) :
    collision_detected dt a b = collision_detected dt b a := by
  unfold collision_detected
  rw [ignore_collision_symm, check_collision_symm]

/- ============ structure of the bordering-zone relation ============ -/

theorem mem_bordering_zones {c c' : Nat × Nat} :
    c' ∈ bordering_zones c ↔
      (c'.1 < ZONES_HORIZONTALLY ∧ c'.2 < ZONES_VERTICALLY) ∧
        (c' = (c.1 + 1, c.2) ∨ c' = (c.1, c.2 + 1) ∨ c' = (c.1 + 1, c.2 + 1)) := by
  simp only [bordering_zones, List.mem_filterMap, List.mem_cons, List.mem_singleton,
    List.not_mem_nil, or_false]
  constructor
  · rintro ⟨d, hd, hfd⟩
    rcases hd with rfl | rfl | rfl <;>
      · split at hfd
        · cases hfd
          simp_all
        · cases hfd
  · rintro ⟨hb, h | h | h⟩ <;> subst h
    · exact ⟨(1, 0), by simp, by simpa using hb⟩
    · exact ⟨(0, 1), by simp, by simpa using hb⟩
    · exact ⟨(1, 1), by simp, by simpa using hb⟩

theorem sum_lt_of_mem_bordering {c c' : Nat × Nat} (h : c' ∈ bordering_zones c) :
    c.1 + c.2 < c'.1 + c'.2 := by
  rcases (mem_bordering_zones.mp h).2 with h | h | h <;> subst h <;> simp <;> omega

theorem ne_of_mem_bordering {c c' : Nat × Nat} (h : c' ∈ bordering_zones c) : c' ≠ c := by
  intro he
  have hs := sum_lt_of_mem_bordering h
  rw [he] at hs
  omega

theorem not_both_bordering {c c' : Nat × Nat} (h : c' ∈ bordering_zones c) :
    c ∉ bordering_zones c' := by
  intro h'
  have h1 := sum_lt_of_mem_bordering h
  have h2 := sum_lt_of_mem_bordering h'
  omega

/- ============ evaluating a two-entity configuration ============ -/

theorem zone_objs_two (a b : MoveObj) (c : Nat × Nat) :
    zone_objs [a, b] c =
      (if a.otype ≠ MoveObjectType.Floor ∧ get_zone (current_position a) = c
       then [a] else []) ++
      (if b.otype ≠ MoveObjectType.Floor ∧ get_zone (current_position b) = c
       then [b] else []) := by
  rw [zone_objs_cons, zone_objs_cons, zone_objs_nil, List.append_nil]

/-- If the two entities of a two-entity tick land in distinct, mutually
non-bordering cells, the pairwise check compares nothing at all. -/
theorem visited_pairs_two_empty {a b : MoveObj}
    (hne : get_zone (current_position a) ≠ get_zone (current_position b))
    (h1 : get_zone (current_position b) ∉ bordering_zones (get_zone (current_position a)))
    (h2 : get_zone (current_position a) ∉ bordering_zones (get_zone (current_position b))) :
    visited_pairs [a, b] = [] := by
  rw [visited_pairs, List.flatMap_eq_nil_iff]
  intro c _
  have hz : ∀ c' : Nat × Nat, c' ≠ get_zone (current_position a) →
      c' ≠ get_zone (current_position b) → zone_objs [a, b] c' = [] := by
    intro c' ha hb
    have e1 : (if a.otype ≠ MoveObjectType.Floor ∧ get_zone (current_position a) = c'
        then [a] else []) = ([] : List MoveObj) := by
      refine if_neg ?_
      rintro ⟨-, h⟩
      exact ha h.symm
    have e2 : (if b.otype ≠ MoveObjectType.Floor ∧ get_zone (current_position b) = c'
        then [b] else []) = ([] : List MoveObj) := by
      refine if_neg ?_
      rintro ⟨-, h⟩
      exact hb h.symm
    rw [zone_objs_two, e1, e2, List.append_nil]
  have key : ∀ x y : MoveObj, ∀ c' : Nat × Nat,
      c' = get_zone (current_position x) →
      c' ≠ get_zone (current_position y) →
      get_zone (current_position y) ∉ bordering_zones c' →
      (∀ c'' ∈ bordering_zones c', zone_objs [a, b] c'' = []) →
      zone_objs [a, b] c' =
        (if x.otype ≠ MoveObjectType.Floor ∧ get_zone (current_position x) = c'
          then [x] else []) →
      cell_pairs [a, b] c' = [] := by
    intro x y c' _ _ _ hbord hzc
    have hothers : (bordering_zones c').flatMap (zone_objs [a, b]) = [] := by
      rw [List.flatMap_eq_nil_iff]
      exact hbord
    rw [cell_pairs, hothers, hzc]
    split
    · rw [forward_pairs_single, List.map_nil]
    · rfl
  by_cases hca : c = get_zone (current_position a)
  · refine key a b c hca (hca ▸ hne) (hca ▸ h1) ?_ ?_
    · intro c'' hc''
      refine hz c'' (fun h => (ne_of_mem_bordering hc'') (h.trans hca.symm)) ?_
      intro h
      exact (hca ▸ h1) (h ▸ hc'')
    · have e2 : (if b.otype ≠ MoveObjectType.Floor ∧ get_zone (current_position b) = c
          then [b] else []) = ([] : List MoveObj) := by
        refine if_neg ?_
        rintro ⟨-, h⟩
        exact (hca ▸ hne) h.symm
      rw [zone_objs_two, e2, List.append_nil]
  · by_cases hcb : c = get_zone (current_position b)
    · refine key b a c hcb (hcb ▸ hne.symm) (hcb ▸ h2) ?_ ?_
      · intro c'' hc''
        refine hz c'' ?_ (fun h => (ne_of_mem_bordering hc'') (h.trans hcb.symm))
        intro h
        exact (hcb ▸ h2) (h ▸ hc'')
      · have e1 : (if a.otype ≠ MoveObjectType.Floor ∧ get_zone (current_position a) = c
            then [a] else []) = ([] : List MoveObj) := by
          refine if_neg ?_
          rintro ⟨-, h⟩
          exact (hcb ▸ hne.symm) h.symm
        rw [zone_objs_two, e1, List.nil_append]
    · rw [cell_pairs, hz c hca hcb, forward_pairs_nil]

/- ============ pairs have distinct components (for duplicate-free inputs) ============ -/

theorem forward_pairs_ne {xs others : List MoveObj} (hnd : xs.Nodup)
    (hdisj : ∀ x ∈ xs, x ∉ others) {p : MoveObj × MoveObj}
    (hp : p ∈ forward_pairs xs others) : p.1 ≠ p.2 := by
  induction xs with
  | nil => simp [forward_pairs] at hp
  | cons x rest ih =>
    rw [forward_pairs, List.mem_append] at hp
    rcases hp with hp | hp
    · rcases List.mem_map.mp hp with ⟨b, hb, rfl⟩
      rcases List.mem_append.mp hb with hb | hb
      · exact fun h => (List.nodup_cons.mp hnd).1 ((show x = b from h) ▸ hb)
      · exact fun h => hdisj x (List.mem_cons_self x rest) ((show x = b from h) ▸ hb)
    · exact ih (List.nodup_cons.mp hnd).2
        (fun y hy => hdisj y (List.mem_cons_of_mem x hy)) hp

theorem zone_objs_nodup {objs : List MoveObj} (h : objs.Nodup) (c : Nat × Nat) :
    (zone_objs objs c).Nodup :=
  (h.filter _).filter _

theorem zone_objs_disjoint_others {objs : List MoveObj} {c : Nat × Nat} {x : MoveObj}
    (hx : x ∈ zone_objs objs c) :
    x ∉ (bordering_zones c).flatMap (zone_objs objs) := by
  intro hmem
  rcases List.mem_flatMap.mp hmem with ⟨c', hc', hx'⟩
  have h1 := (mem_zone_objs.mp hx).2.2
  have h2 := (mem_zone_objs.mp hx').2.2
  exact ne_of_mem_bordering hc' (h2 ▸ h1)

theorem visited_pairs_ne {objs : List MoveObj} (hnodup : objs.Nodup)
    {p : MoveObj × MoveObj} (hp : p ∈ visited_pairs objs) : p.1 ≠ p.2 := by
  rcases List.mem_flatMap.mp hp with ⟨c, _, hpc⟩
  exact forward_pairs_ne (zone_objs_nodup hnodup c)
    (fun x hx => zone_objs_disjoint_others hx) hpc

/- ============ concrete visitation for two entities in one cell ============ -/

theorem pair_mem_forward_pairs_head (a b : MoveObj) (rest others : List MoveObj)
    (hb : b ∈ rest ++ others) : (a, b) ∈ forward_pairs (a :: rest) others := by
  rw [forward_pairs, List.mem_append]
  exact Or.inl (List.mem_map.mpr ⟨b, hb, rfl⟩)

/-- In a two-entity tick where both non-`Floor` entities bucket into the same
cell, the pairwise check compares them (in list order). -/
theorem mem_visited_two_same_cell (a b : MoveObj) (z : Nat × Nat)
    (hza : get_zone (current_position a) = z) (hzb : get_zone (current_position b) = z)
    (hfa : a.otype ≠ MoveObjectType.Floor) (hfb : b.otype ≠ MoveObjectType.Floor)
    (hz : z ∈ all_cells) : (a, b) ∈ visited_pairs [a, b] := by
  have hzc : zone_objs [a, b] z = [a, b] := by
    rw [zone_objs_two, if_pos ⟨hfa, hza⟩, if_pos ⟨hfb, hzb⟩]
    rfl
  refine cell_pairs_subset_visited hz ?_
  rw [cell_pairs, hzc]
  exact pair_mem_forward_pairs_head a b [b] _ (by simp)

/- ============ evaluating the concrete configurations ============ -/

theorem zone_c1A : get_zone (current_position c1A) = (0, 1) := by
  simp only [get_zone, current_position, Vec3.truncate, c1A, rustCastUsize_def,
    WINDOW_WIDTH, WINDOW_HEIGHT, ZONE_SIZE, ZONES_HORIZONTALLY, ZONES_VERTICALLY]
  norm_num

theorem zone_c1B : get_zone (current_position c1B) = (1, 0) := by
  simp only [get_zone, current_position, Vec3.truncate, c1B, rustCastUsize_def,
    WINDOW_WIDTH, WINDOW_HEIGHT, ZONE_SIZE, ZONES_HORIZONTALLY, ZONES_VERTICALLY]
  norm_num

theorem zone_c3A : get_zone (current_position c3A) = (0, 1) := by
  simp only [get_zone, current_position, Vec3.truncate, c3A, rustCastUsize_def,
    WINDOW_WIDTH, WINDOW_HEIGHT, ZONE_SIZE, ZONES_HORIZONTALLY, ZONES_VERTICALLY]
  norm_num

theorem zone_c3B : get_zone (current_position c3B) = (1, 0) := by
  simp only [get_zone, current_position, Vec3.truncate, c3B, rustCastUsize_def,
    WINDOW_WIDTH, WINDOW_HEIGHT, ZONE_SIZE, ZONES_HORIZONTALLY, ZONES_VERTICALLY]
  norm_num

theorem zone_origin_cell (v : Vec3) (hx : v.x = 0 ∨ v.x = 1 ∨ v.x = 4 ∨ v.x = 5 ∨ v.x = 25)
    (hy : v.y = 0 ∨ v.y = 1 ∨ v.y = 4 ∨ v.y = 5) :
    get_zone v.truncate = (5, 3) := by
  simp only [get_zone, Vec3.truncate, rustCastUsize_def,
    WINDOW_WIDTH, WINDOW_HEIGHT, ZONE_SIZE, ZONES_HORIZONTALLY, ZONES_VERTICALLY]
  rcases hx with hx | hx | hx | hx | hx <;> rcases hy with hy | hy | hy | hy <;>
    rw [hx, hy] <;> norm_num <;> decide

theorem cell53_mem_all_cells : (5, 3) ∈ all_cells := by
  rw [mem_all_cells_iff, ZONES_HORIZONTALLY_eq, ZONES_VERTICALLY_eq]
  decide

theorem anti_diagonal_not_bordering :
    ((1, 0) : Nat × Nat) ∉ bordering_zones (0, 1) ∧
      ((0, 1) : Nat × Nat) ∉ bordering_zones (1, 0) := by
  constructor <;>
    · rw [mem_bordering_zones]
      rintro ⟨-, h | h | h⟩ <;> simp at h

theorem visited_pairs_c1 : visited_pairs [c1A, c1B] = [] := by
  refine visited_pairs_two_empty ?_ ?_ ?_
  · rw [zone_c1A, zone_c1B]
    decide
  · rw [zone_c1A, zone_c1B]
    exact anti_diagonal_not_bordering.1
  · rw [zone_c1A, zone_c1B]
    exact anti_diagonal_not_bordering.2

theorem visited_pairs_c3 : visited_pairs [c3A, c3B] = [] := by
  refine visited_pairs_two_empty ?_ ?_ ?_
  · rw [zone_c3A, zone_c3B]
    decide
  · rw [zone_c3A, zone_c3B]
    exact anti_diagonal_not_bordering.1
  · rw [zone_c3A, zone_c3B]
    exact anti_diagonal_not_bordering.2

theorem zone_c1WA : get_zone (current_position c1WA) = (5, 3) :=
  zone_origin_cell c1WA.translation (Or.inl rfl) (Or.inl rfl)

theorem zone_c1WB : get_zone (current_position c1WB) = (5, 3) :=
  zone_origin_cell c1WB.translation (Or.inr (Or.inl rfl)) (Or.inr (Or.inl rfl))

theorem zone_c2E : get_zone (current_position c2E) = (5, 3) :=
  zone_origin_cell c2E.translation (Or.inl rfl) (Or.inl rfl)

theorem zone_c3WA : get_zone (current_position c3WA) = (5, 3) :=
  zone_origin_cell c3WA.translation (Or.inl rfl) (Or.inl rfl)

theorem zone_c3WB : get_zone (current_position c3WB) = (5, 3) :=
  zone_origin_cell c3WB.translation (Or.inr (Or.inr (Or.inr (Or.inl rfl))))
    (Or.inr (Or.inr (Or.inr rfl)))

theorem zone_c5WA : get_zone (current_position c5WA) = (5, 3) :=
  zone_origin_cell c5WA.translation (Or.inl rfl) (Or.inl rfl)

theorem zone_c5WB : get_zone (current_position c5WB) = (5, 3) :=
  zone_origin_cell c5WB.translation (Or.inr (Or.inr (Or.inl rfl)))
    (Or.inr (Or.inr (Or.inl rfl)))

theorem zone_c7P : get_zone (current_position c7P) = (5, 3) :=
  zone_origin_cell c7P.translation (Or.inl rfl) (Or.inl rfl)

theorem zone_c7B : get_zone (current_position c7B) = (5, 3) :=
  zone_origin_cell c7B.translation (Or.inr (Or.inr (Or.inr (Or.inr rfl)))) (Or.inl rfl)

theorem fut_c2E : future_position 1 c2E = Vec2.mk 100 0 := by
  simp only [future_position, current_position, Vec3.truncate, c2E, Vec2.add, Vec2.scale,
    Vec2.mk.injEq]
  norm_num

theorem zone_fut_c2E : get_zone (Vec2.mk 100 0) = (6, 3) := by
  simp only [get_zone, rustCastUsize_def,
    WINDOW_WIDTH, WINDOW_HEIGHT, ZONE_SIZE, ZONES_HORIZONTALLY, ZONES_VERTICALLY]
  norm_num
  decide

theorem col_c1 : Hitbox.check_collision c1A.hitbox (future_position 0 c1A)
    c1B.hitbox (future_position 0 c1B) = some true := by
  simp only [c1A, c1B, future_position, current_position, Vec3.truncate,
    Hitbox.check_collision, Option.some.injEq]
  rw [collide_eq_true_iff]
  norm_num

theorem fut_c3A : future_position (1 / 10) c3A = Vec2.mk (-400) (-199) := by
  simp only [future_position, current_position, Vec3.truncate, c3A, Vec2.add, Vec2.scale,
    Vec2.mk.injEq]
  norm_num

theorem col_c3 : Hitbox.check_collision c3A.hitbox (future_position (1 / 10) c3A)
    c3B.hitbox (future_position (1 / 10) c3B) = some true := by
  rw [fut_c3A]
  simp only [c3A, c3B, future_position, current_position, Vec3.truncate,
    Hitbox.check_collision, Option.some.injEq]
  rw [collide_eq_true_iff]
  norm_num

theorem blocked_c3 : blocked (1 / 10) [c3A, c3B] c3A = false := by
  rw [blocked, visited_pairs_c3]
  rfl

theorem fut_c7B : future_position (1 / 10) c7B = Vec2.mk 20 0 := by
  simp only [future_position, current_position, Vec3.truncate, c7B, Vec2.add, Vec2.scale,
    Vec2.mk.injEq]
  norm_num

theorem fut_c7P : future_position (1 / 10) c7P = Vec2.mk 0 0 := by
  simp only [future_position, current_position, Vec3.truncate, c7P, Vec2.add, Vec2.scale,
    Vec2.mk.injEq]
  norm_num

theorem col_c7 : Hitbox.check_collision c7P.hitbox (future_position (1 / 10) c7P)
    c7B.hitbox (future_position (1 / 10) c7B) = some false := by
  rw [fut_c7B, fut_c7P]
  simp only [c7P, c7B, Hitbox.check_collision, Option.some.injEq]
  rw [Bool.eq_false_iff]
  intro h
  rcases collide_eq_true_iff.mp h with ⟨-, h2, -, -⟩
  norm_num at h2

theorem detect_c7 : collision_detected (1 / 10) c7P c7B = false := by
  rw [collision_detected, col_c7]
  rfl

theorem nodup_c7 : ([c7P, c7B] : List MoveObj).Nodup := by
  simp [c7P, c7B]

theorem events_c7 : collision_events (1 / 10) [c7P, c7B] = [] := by
  rw [collision_events, List.flatMap_eq_nil_iff]
  intro p hp
  have hne := visited_pairs_ne nodup_c7 hp
  have hmem := mem_objs_of_mem_visited_pairs hp
  have h1 : p.1 = c7P ∨ p.1 = c7B := by simpa using hmem.1.1
  have h2 : p.2 = c7P ∨ p.2 = c7B := by simpa using hmem.2.1
  rcases h1 with h1 | h1 <;> rcases h2 with h2 | h2
  · exact absurd (h1.trans h2.symm) hne
  · rw [if_neg]
    rw [h1, h2, detect_c7]
    simp
  · rw [if_neg]
    rw [h1, h2, collision_detected_symm, detect_c7]
    simp
  · exact absurd (h1.trans h2.symm) hne

/- ===================== claim C1 ===================== -/

/-- C1, counterexample: the two overlapping, non-ignored, non-`Floor` 30×30
entities `c1A` and `c1B` (hitbox extent 30 < `ZONE_SIZE` = 100) bucket into
the anti-diagonally adjacent cells `(0, 1)` and `(1, 0)`; the pairwise check,
which only looks at the own cell plus the right/up/up-right neighbours,
never visits the pair, so their true overlap goes undetected. -/
theorem C1_counterexample :
    ignore_collision c1A.otype c1B.otype = false ∧
    Hitbox.check_collision c1A.hitbox (future_position 0 c1A)
        c1B.hitbox (future_position 0 c1B) = some true ∧
    (c1A.hitbox = Hitbox.Rectangle ⟨30, 30⟩ ∧ c1B.hitbox = Hitbox.Rectangle ⟨30, 30⟩ ∧
      (30 : ℚ) < ZONE_SIZE) ∧
    visited_pairs [c1A, c1B] = [] ∧
    collision_events 0 [c1A, c1B] = [] := by
  refine ⟨rfl, col_c1, ⟨rfl, rfl, by norm_num [ZONE_SIZE]⟩, visited_pairs_c1, ?_⟩
  rw [collision_events, visited_pairs_c1]
  rfl

/-- C1, amended: the pairwise check does visit every pair of distinct
non-`Floor` entities whose *current-position* cells either coincide or are
related by one of the three checked forward offsets (right, up, up-right); it
misses pairs in anti-diagonally adjacent cells (see the counterexample), so
the 3-forward-cell sweep does not detect every true overlap. -/
theorem C1_theorem (objs : List MoveObj) (a b : MoveObj)
    (ha : a ∈ objs) (hb : b ∈ objs)
    (hfa : a.otype ≠ MoveObjectType.Floor) (hfb : b.otype ≠ MoveObjectType.Floor)
    (hne : a ≠ b)
    (hadj : get_zone (current_position b) = get_zone (current_position a) ∨
      get_zone (current_position b) ∈ bordering_zones (get_zone (current_position a))) :
    (a, b) ∈ visited_pairs objs ∨ (b, a) ∈ visited_pairs objs := by
  have hmema : a ∈ zone_objs objs (get_zone (current_position a)) :=
    mem_zone_objs.mpr ⟨ha, hfa, rfl⟩
  rcases hadj with hsame | hbord
  · have hmemb : b ∈ zone_objs objs (get_zone (current_position a)) :=
      mem_zone_objs.mpr ⟨hb, hfb, hsame⟩
    rcases @mem_forward_pairs_of_mem_same
        (zone_objs objs (get_zone (current_position a)))
        ((bordering_zones (get_zone (current_position a))).flatMap (zone_objs objs))
        a b hmema hmemb hne with h | h
    · exact Or.inl (cell_pairs_subset_visited (get_zone_mem_all_cells _) h)
    · exact Or.inr (cell_pairs_subset_visited (get_zone_mem_all_cells _) h)
  · have hmemb : b ∈ (bordering_zones (get_zone (current_position a))).flatMap (zone_objs objs) :=
      List.mem_flatMap.mpr ⟨_, hbord, mem_zone_objs.mpr ⟨hb, hfb, rfl⟩⟩
    exact Or.inl (cell_pairs_subset_visited (get_zone_mem_all_cells _)
      (mem_forward_pairs_of_mem_others hmema hmemb))

/-- C1, witness: the amended visitation guarantee applied to two concrete
same-cell entities. -/
theorem C1_witness :
    c1WA ∈ [c1WA, c1WB] ∧ c1WB ∈ [c1WA, c1WB] ∧ c1WA ≠ c1WB ∧
      ((c1WA, c1WB) ∈ visited_pairs [c1WA, c1WB] ∨
        (c1WB, c1WA) ∈ visited_pairs [c1WA, c1WB]) :=
  ⟨by simp, by simp, by simp [c1WA, c1WB],
    C1_theorem [c1WA, c1WB] c1WA c1WB (by simp) (by simp)
      (by simp [c1WA]) (by simp [c1WB]) (by simp [c1WA, c1WB])
      (Or.inl (by rw [zone_c1WB, zone_c1WA]))⟩

/- ===================== claim C2 ===================== -/

/-- C2, counterexample: the non-`Floor` entity `c2E` (velocity `(100, 0)`,
`dt = 1`) has projected position `(100, 0)` in cell `(6, 3)`, yet the grid
stores it in the cell `(5, 3)` of its *current* position: the cell of its
projected position is empty. -/
theorem C2_counterexample :
    c2E.otype ≠ MoveObjectType.Floor ∧
    future_position 1 c2E = Vec2.mk 100 0 ∧
    get_zone (future_position 1 c2E) = (6, 3) ∧
    get_zone (current_position c2E) = (5, 3) ∧
    zone_objs [c2E] (6, 3) = [] ∧
    zone_objs [c2E] (5, 3) = [c2E] := by
  refine ⟨by simp [c2E], fut_c2E, by rw [fut_c2E]; exact zone_fut_c2E, zone_c2E, ?_, ?_⟩
  · rw [zone_objs_cons, zone_objs_nil, List.append_nil, if_neg]
    rintro ⟨-, h⟩
    rw [zone_c2E] at h
    exact absurd h (by decide)
  · rw [zone_objs_cons, zone_objs_nil, List.append_nil, if_pos]
    exact ⟨by simp [c2E], zone_c2E⟩

/-- C2, amended: when the grid is rebuilt, an entity lands in cell `c`
exactly when it is a non-`Floor` entity of the tick whose *current* position
(`translation.truncate()`) buckets to `c`; the projected position is computed
and carried along, but only for the later overlap test and the final move,
not for bucketing. -/
theorem C2_theorem (objs : List MoveObj) (c : Nat × Nat) (o : MoveObj) :
    o ∈ zone_objs objs c ↔
      o ∈ objs ∧ o.otype ≠ MoveObjectType.Floor ∧ get_zone (current_position o) = c :=
  mem_zone_objs

/-- C2, witness: the amended bucketing rule instantiated on a concrete
entity, placing it by its current position. -/
theorem C2_witness :
    c2E ∈ [c2E] ∧ c2E.otype ≠ MoveObjectType.Floor ∧
      get_zone (current_position c2E) = (5, 3) ∧ c2E ∈ zone_objs [c2E] (5, 3) :=
  ⟨by simp, by simp [c2E], zone_c2E,
    (C2_theorem [c2E] (5, 3) c2E).mpr ⟨by simp, by simp [c2E], zone_c2E⟩⟩

/- ===================== claim C6 ===================== -/

/-- C6: starting from any record with `current_health ≤ max_health`, every
finite sequence of heal/damage operations keeps `current_health` within
`[0, max_health]` (the lower bound is inherent to `Nat`); `heal` is exactly
clamped addition, and healing `{max 42, current 10}` by 100 yields 42. -/
theorem C6_theorem :
    (∀ (h : HealthData) (ops : List HealthOp),
        h.current_health ≤ h.max_health →
          (HealthData.applyOps h ops).current_health ≤
            (HealthData.applyOps h ops).max_health) ∧
    (∀ (h : HealthData) (amount : Nat),
        (h.heal amount).current_health = min h.max_health (h.current_health + amount)) ∧
    (HealthData.heal ⟨42, 10⟩ 100).current_health = 42 := by
  refine ⟨?_, fun h a => rfl, rfl⟩
  intro h ops hle
  induction ops generalizing h with
  | nil => exact hle
  | cons op rest ih =>
    have hstep : (h.applyOp op).current_health ≤ (h.applyOp op).max_health := by
      cases op with
      | heal a => simp [HealthData.applyOp, HealthData.heal]
      | damage a =>
        rw [HealthData.applyOp, HealthData.take_damage]
        split
        · simp
        · simp only []
          omega
    exact ih (h.applyOp op) hstep

/-- C6, witness: the bound instantiated on a concrete record and sequence. -/
theorem C6_witness :
    (5 : Nat) ≤ 10 ∧
      (HealthData.applyOps ⟨10, 5⟩ [HealthOp.damage 7, HealthOp.heal 3]).current_health ≤
        (HealthData.applyOps ⟨10, 5⟩ [HealthOp.damage 7, HealthOp.heal 3]).max_health :=
  ⟨by decide, C6_theorem.1 ⟨10, 5⟩ [HealthOp.damage 7, HealthOp.heal 3] (by decide)⟩

/- ===================== claim C8 ===================== -/

/-- C8: `Parser::new` at the failing input. An unreadable save file
(`fs::read_to_string` error) makes `Parser::new` panic through
`.expect("Something went wrong reading the file")` — aborting the process —
instead of reporting and returning `None` as both the claim and the
function's own doc comment ("return None if path or content is invalid")
state; only malformed *content* takes the non-fatal `None` path. -/
theorem C8_theorem :
    (∀ (msg : String) (parse : String → Option (List ParsedEntity)),
        Parser.new (FsRead.err msg) parse =
          Except.error "Something went wrong reading the file") ∧
      Parser.new (FsRead.ok "not json") (fun _ => none) = Except.ok none :=
  ⟨fun _ _ => rfl, rfl⟩

/- ===================== claim C9 ===================== -/

/-- C9: after the clear phase, every tracked entity's velocity accumulator is
exactly the zero vector, whatever it held before (clearing an already-zero
vector leaves it zero, as a special case of the universal statement). -/
theorem C9_theorem (vectors : List (Nat × Vec2)) (p : Nat × Vec2)
    (hp : p ∈ clear_velocity_vector vectors) : p.2 = Vec2.zero := by
  rcases List.mem_map.mp hp with ⟨q, -, rfl⟩
  rfl

/-- C9, witness: clearing a one-entity query holding `(3, 4)`. -/
theorem C9_witness :
    ((7, Vec2.zero) : Nat × Vec2) ∈ clear_velocity_vector [(7, Vec2.mk 3 4)] ∧
      ((7, Vec2.zero) : Nat × Vec2).2 = Vec2.zero :=
  ⟨List.mem_singleton.mpr rfl,
    C9_theorem [(7, Vec2.mk 3 4)] (7, Vec2.zero) (List.mem_singleton.mpr rfl)⟩

/- ===================== claim C10 ===================== -/

/-- C10: the movement step never writes the `z` component: whether an
entity's position is advanced or suppressed, `translation.z` is unchanged
(`fut_pos.extend(transform.translation.z)` restores the old `z`). -/
theorem C10_theorem (dt : ℚ) (objs : List MoveObj) :
    (move_system dt objs).1.map (fun o => o.translation.z) =
      objs.map (fun o => o.translation.z) := by
  rw [move_system]
  simp only [List.map_map]
  refine List.map_congr_left ?_
  intro o _
  simp only [Function.comp_apply]
  rw [moved_obj]
  split
  · rfl
  · split
    · rfl
    · simp [Vec2.extend]

/- ============ characterizing the emitted events ============ -/

theorem mem_collision_events {dt : ℚ} {objs : List MoveObj} {e : CollisionEvent} :
    e ∈ collision_events dt objs ↔
      ∃ p ∈ visited_pairs objs, collision_detected dt p.1 p.2 = true ∧
        (e = ⟨p.1.id, p.1.otype, p.2.id, p.2.otype⟩ ∨
          e = ⟨p.2.id, p.2.otype, p.1.id, p.1.otype⟩) := by
  rw [collision_events]
  simp only [List.mem_flatMap]
  constructor
  · rintro ⟨p, hp, he⟩
    split at he
    · refine ⟨p, hp, by assumption, ?_⟩
      simp only [pair_events, List.mem_cons, List.not_mem_nil, or_false] at he
      exact he
    · simp at he
  · rintro ⟨p, hp, hdet, he⟩
    refine ⟨p, hp, ?_⟩
    rw [if_pos hdet]
    simp only [pair_events, List.mem_cons, List.not_mem_nil, or_false]
    exact he

theorem id_inj {objs : List MoveObj} (hids : (objs.map MoveObj.id).Nodup)
    {x y : MoveObj} (hx : x ∈ objs) (hy : y ∈ objs) (h : x.id = y.id) : x = y :=
  List.inj_on_of_nodup_map hids hx hy h

/- ===================== claim C3 ===================== -/

/-- C3, counterexample: `c3A` (a `Player`, velocity `(10, 0)`) and `c3B` (an
`Enemy`) have a block policy (`ignore_collision` is `false`, `allow_overlap`
is identically `false`) and overlapping projected rectangles at `dt = 1/10`,
yet `c3A`'s position *is* advanced (from `(-401, -199)` to `(-400, -199)`)
because the pair buckets into anti-diagonal cells and is never visited. -/
theorem C3_counterexample :
    ignore_collision c3A.otype c3B.otype = false ∧
    Hitbox.check_collision c3A.hitbox (future_position (1 / 10) c3A)
        c3B.hitbox (future_position (1 / 10) c3B) = some true ∧
    (moved_obj (1 / 10) [c3A, c3B] c3A).translation = Vec3.mk (-400) (-199) 1 ∧
    Vec3.mk (-400) (-199) 1 ≠ c3A.translation := by
  refine ⟨rfl, col_c3, ?_, ?_⟩
  · rw [moved_obj, if_neg (by simp [c3A]), if_neg (by rw [blocked_c3]; simp)]
    rw [fut_c3A]
    rfl
  · intro h
    have hx := congrArg Vec3.x h
    simp only [c3A] at hx
    norm_num at hx

/-- C3, amended: for every pair the broad phase actually visits, block policy
plus projected overlap does suppress both advances (flags are only ever set,
so once marked an entity stays blocked and its `Transform` is left unchanged);
and an ignore-policy pair never produces a `CollisionEvent` between its two
ids, in either direction. The broad phase, however, does not visit every
geometrically overlapping pair (see the counterexample). -/
theorem C3_theorem (dt : ℚ) (objs : List MoveObj) (a b : MoveObj)
    (hids : (objs.map MoveObj.id).Nodup) (ha : a ∈ objs) (hb : b ∈ objs) :
    ((a, b) ∈ visited_pairs objs → collision_detected dt a b = true →
        moved_obj dt objs a = a ∧ moved_obj dt objs b = b) ∧
    (ignore_collision a.otype b.otype = true →
        ∀ e ∈ collision_events dt objs,
          ¬(e.object_id = a.id ∧ e.collided_with_id = b.id)) := by
  constructor
  · intro hvis hdet
    have hba : blocked dt objs a = true := by
      rw [blocked, List.any_eq_true]
      exact ⟨(a, b), hvis, by simp [hdet, allow_overlap]⟩
    have hbb : blocked dt objs b = true := by
      rw [blocked, List.any_eq_true]
      exact ⟨(a, b), hvis, by simp [hdet, allow_overlap]⟩
    constructor
    · rw [moved_obj]
      split
      · rfl
      · simp [hba]
    · rw [moved_obj]
      split
      · rfl
      · simp [hbb]
  · intro hig e he hcontra
    rcases mem_collision_events.mp he with ⟨p, hp, hdet, hform⟩
    have hmem := mem_objs_of_mem_visited_pairs hp
    rcases hform with rfl | rfl
    · obtain ⟨h1, h2⟩ := hcontra
      have e1 : p.1 = a := id_inj hids hmem.1.1 ha h1
      have e2 : p.2 = b := id_inj hids hmem.2.1 hb h2
      rw [collision_detected, e1, e2, hig] at hdet
      simp at hdet
    · obtain ⟨h1, h2⟩ := hcontra
      have e1 : p.2 = a := id_inj hids hmem.2.1 ha h1
      have e2 : p.1 = b := id_inj hids hmem.1.1 hb h2
      rw [collision_detected, e1, e2, ignore_collision_symm, hig] at hdet
      simp at hdet

theorem fut_c3WA : future_position (1 / 10) c3WA = Vec2.mk 1 0 := by
  simp only [future_position, current_position, Vec3.truncate, c3WA, Vec2.add, Vec2.scale,
    Vec2.mk.injEq]
  norm_num

theorem detect_c3W : collision_detected (1 / 10) c3WA c3WB = true := by
  have hcol : Hitbox.check_collision c3WA.hitbox (future_position (1 / 10) c3WA)
      c3WB.hitbox (future_position (1 / 10) c3WB) = some true := by
    rw [fut_c3WA]
    simp only [c3WA, c3WB, future_position, current_position, Vec3.truncate,
      Hitbox.check_collision, Option.some.injEq]
    rw [collide_eq_true_iff]
    norm_num
  rw [collision_detected, hcol]
  rfl

/-- C3, witness: the amended blocking guarantee on a concrete visited,
detected pair. -/
theorem C3_witness :
    ([c3WA, c3WB].map MoveObj.id).Nodup ∧
    (c3WA, c3WB) ∈ visited_pairs [c3WA, c3WB] ∧
    collision_detected (1 / 10) c3WA c3WB = true ∧
    moved_obj (1 / 10) [c3WA, c3WB] c3WA = c3WA ∧
    moved_obj (1 / 10) [c3WA, c3WB] c3WB = c3WB := by
  have hids : ([c3WA, c3WB].map MoveObj.id).Nodup := by simp [c3WA, c3WB]
  have hvis : (c3WA, c3WB) ∈ visited_pairs [c3WA, c3WB] :=
    mem_visited_two_same_cell c3WA c3WB (5, 3) zone_c3WA zone_c3WB
      (by simp [c3WA]) (by simp [c3WB]) cell53_mem_all_cells
  have hmoved := (C3_theorem (1 / 10) [c3WA, c3WB] c3WA c3WB hids
    (by simp) (by simp)).1 hvis detect_c3W
  exact ⟨hids, hvis, detect_c3W, hmoved.1, hmoved.2⟩

/- ===================== claim C7 ===================== -/

/-- C7, counterexample: in Scenario B the projectile's projected position is
indeed `(20, 0)`, but `move_system` emits *no* `CollisionEvent` for the tick
(the claim promises two). -/
theorem C7_counterexample :
    future_position (1 / 10) c7B = Vec2.mk 20 0 ∧
    collision_events (1 / 10) [c7P, c7B] = [] :=
  ⟨fut_c7B, events_c7⟩

/-- C7, amended: the projectile projects to `(20, 0)`, but a 5×5 box there
spans x ∈ [17.5, 22.5] while the player's 30×30 box spans x ∈ [-15, 15], so
the AABB test fails: the pair is visited (same grid cell) yet no event is
emitted. Moreover `player_takes_damage` maps a Player-perspective collision
with an `EnemyBullet` to no `TakeDamageEvent` at all: its two branches only
match others that are player-fired bullets (`With<BulletMarker>`) or enemies
(`With<EnemyMarker>`), and the projectile entity is in neither query. -/
theorem C7_theorem :
    future_position (1 / 10) c7B = Vec2.mk 20 0 ∧
    Hitbox.check_collision c7P.hitbox (future_position (1 / 10) c7P)
        c7B.hitbox (future_position (1 / 10) c7B) = some false ∧
    (c7P, c7B) ∈ visited_pairs [c7P, c7B] ∧
    collision_events (1 / 10) [c7P, c7B] = [] ∧
    player_takes_damage [⟨1, MoveObjectType.Player, 2, MoveObjectType.EnemyBullet⟩]
      [1] [] [] = [] := by
  refine ⟨fut_c7B, col_c7, ?_, events_c7, rfl⟩
  exact mem_visited_two_same_cell c7P c7B (5, 3) zone_c7P zone_c7B
    (by simp [c7P]) (by simp [c7B]) cell53_mem_all_cells

/- ===================== claim C4: health/death infrastructure ===================== -/

theorem mem_insertDead_self (dead : List Nat) (id : Nat) : id ∈ insertDead dead id := by
  rw [insertDead]
  split
  · assumption
  · simp

theorem mem_insertDead_mono {dead : List Nat} {x : Nat} (h : x ∈ dead) (id : Nat) :
    x ∈ insertDead dead id := by
  rw [insertDead]
  split
  · exact h
  · exact List.mem_append_left _ h

theorem insertDead_nodup {dead : List Nat} (h : dead.Nodup) (id : Nat) :
    (insertDead dead id).Nodup := by
  rw [insertDead]
  split
  · exact h
  · rw [List.nodup_append]
    exact ⟨h, List.nodup_singleton id, by simpa using (by assumption : ¬id ∈ dead)⟩

theorem mem_of_mem_insertDead {dead : List Nat} {x id : Nat}
    (h : x ∈ insertDead dead id) : x ∈ dead ∨ x = id := by
  rw [insertDead] at h
  split at h
  · exact Or.inl h
  · rcases List.mem_append.mp h with h | h
    · exact Or.inl h
    · exact Or.inr (List.mem_singleton.mp h)

theorem damageStep_dead_nodup {st : List (Nat × HealthData) × List Nat}
    (h : st.2.Nodup) (ev : TakeDamageEvent) : (damageStep st ev).2.Nodup := by
  rw [damageStep]
  split
  · exact h
  · split
    · exact insertDead_nodup h _
    · exact h

theorem foldl_damageStep_dead_nodup (damages : List TakeDamageEvent) :
    ∀ st : List (Nat × HealthData) × List Nat, st.2.Nodup →
      (damages.foldl damageStep st).2.Nodup := by
  induction damages with
  | nil => exact fun st h => h
  | cons ev rest ih =>
    intro st h
    rw [List.foldl_cons]
    exact ih _ (damageStep_dead_nodup h ev)

theorem damageStep_dead_sub {st : List (Nat × HealthData) × List Nat}
    {x : Nat} (h : x ∈ (damageStep st ev).2) : x ∈ st.2 ∨ x = ev.id := by
  rw [damageStep] at h
  split at h
  · exact Or.inl h
  · split at h
    · exact mem_of_mem_insertDead h
    · exact Or.inl h

theorem damageStep_dead_mono {st : List (Nat × HealthData) × List Nat}
    {x : Nat} (h : x ∈ st.2) (ev : TakeDamageEvent) : x ∈ (damageStep st ev).2 := by
  rw [damageStep]
  split
  · exact h
  · split
    · exact mem_insertDead_mono h _
    · exact h

theorem foldl_damageStep_dead_mono (damages : List TakeDamageEvent) :
    ∀ st : List (Nat × HealthData) × List Nat, ∀ x ∈ st.2,
      x ∈ (damages.foldl damageStep st).2 := by
  induction damages with
  | nil => exact fun st x h => h
  | cons ev rest ih =>
    intro st x h
    rw [List.foldl_cons]
    exact ih _ x (damageStep_dead_mono h ev)

theorem foldl_damageStep_dead_of_mem (damages : List TakeDamageEvent) :
    ∀ st : List (Nat × HealthData) × List Nat, ∀ x ∈ (damages.foldl damageStep st).2,
      x ∈ st.2 ∨ x ∈ damages.map TakeDamageEvent.id := by
  induction damages with
  | nil => exact fun st x h => Or.inl h
  | cons ev rest ih =>
    intro st x h
    rw [List.foldl_cons] at h
    rcases ih _ x h with h | h
    · rcases damageStep_dead_sub h with h | h
      · exact Or.inl h
      · exact Or.inr (by simp [h])
    · exact Or.inr (by simp [h])

theorem updateHealth_cons (p : Nat × HealthData) (rest : List (Nat × HealthData))
    (i : Nat) (f : HealthData → HealthData) :
    updateHealth (p :: rest) i f =
      (if p.1 = i then (p.1, f p.2) else p) :: updateHealth rest i f := rfl

theorem lookupHealth_cons (p : Nat × HealthData) (rest : List (Nat × HealthData))
    (x : Nat) :
    lookupHealth (p :: rest) x = if p.1 = x then some p.2 else lookupHealth rest x := by
  by_cases h : p.1 = x
  · simp [lookupHealth, List.find?, h]
  · have hb : (p.1 == x) = false := beq_eq_false_iff_ne.mpr h
    simp [lookupHealth, List.find?, hb, h]

theorem lookupHealth_updateHealth_ne (es : List (Nat × HealthData)) {i x : Nat}
    (f : HealthData → HealthData) (h : x ≠ i) :
    lookupHealth (updateHealth es i f) x = lookupHealth es x := by
  induction es with
  | nil => rfl
  | cons p rest ih =>
    rw [updateHealth_cons, lookupHealth_cons, lookupHealth_cons]
    by_cases hp : p.1 = i
    · rw [if_pos hp]
      have hne : ¬p.1 = x := fun he => h (he.symm.trans hp)
      rw [if_neg (by simpa using hne), if_neg hne]
      exact ih
    · rw [if_neg hp]
      by_cases hx : p.1 = x
      · rw [if_pos hx, if_pos hx]
      · rw [if_neg hx, if_neg hx]
        exact ih

theorem lookupHealth_updateHealth_self {es : List (Nat × HealthData)} {i : Nat}
    {h0 : HealthData} (f : HealthData → HealthData) (h : lookupHealth es i = some h0) :
    lookupHealth (updateHealth es i f) i = some (f h0) := by
  induction es with
  | nil => simp [lookupHealth] at h
  | cons p rest ih =>
    rw [lookupHealth_cons] at h
    rw [updateHealth_cons, lookupHealth_cons]
    by_cases hp : p.1 = i
    · rw [if_pos hp] at h
      cases h
      rw [if_pos hp]
      simp [hp]
    · rw [if_neg hp] at h
      rw [if_neg hp, if_neg hp]
      exact ih h

theorem damageStep_lookup_ne {st : List (Nat × HealthData) × List Nat}
    {x : Nat} (ev : TakeDamageEvent) (h : x ≠ ev.id) :
    lookupHealth (damageStep st ev).1 x = lookupHealth st.1 x := by
  rw [damageStep]
  split
  · rfl
  · dsimp only
    exact lookupHealth_updateHealth_ne st.1 _ h

theorem foldl_damageStep_lookup_not_mem (damages : List TakeDamageEvent) :
    ∀ st : List (Nat × HealthData) × List Nat, ∀ x : Nat,
      x ∉ damages.map TakeDamageEvent.id →
      lookupHealth (damages.foldl damageStep st).1 x = lookupHealth st.1 x := by
  induction damages with
  | nil => exact fun st x _ => rfl
  | cons ev rest ih =>
    intro st x hx
    rw [List.foldl_cons, ih _ x (fun h => hx (by simp [h]))]
    exact damageStep_lookup_ne ev (fun h => hx (by simp [h]))

/-- If an entity is targeted by some damage event of the tick and its record
ends the damage phase at zero health, it is in the dead set. -/
theorem foldl_damageStep_dead_of_zero (damages : List TakeDamageEvent) :
    ∀ st : List (Nat × HealthData) × List Nat, ∀ id : Nat, ∀ h' : HealthData,
      id ∈ damages.map TakeDamageEvent.id →
      lookupHealth (damages.foldl damageStep st).1 id = some h' →
      h'.current_health = 0 →
      id ∈ (damages.foldl damageStep st).2 := by
  induction damages with
  | nil => simp
  | cons ev rest ih =>
    intro st id h' hmem hlk hzero
    rw [List.foldl_cons] at hlk ⊢
    by_cases hrest : id ∈ rest.map TakeDamageEvent.id
    · exact ih _ id h' hrest hlk hzero
    · have hid : ev.id = id := by
        rcases List.mem_map.mp hmem with ⟨e, he, hei⟩
        rcases List.mem_cons.mp he with rfl | he
        · exact hei
        · exact absurd (List.mem_map.mpr ⟨e, he, hei⟩) hrest
      have hfix := foldl_damageStep_lookup_not_mem rest (damageStep st ev) id hrest
      rw [hfix] at hlk
      rcases hst : lookupHealth st.1 ev.id with _ | h0
      · rw [damageStep, hst] at hlk
        dsimp only at hlk
        rw [← hid, hst] at hlk
        cases hlk
      · have hup : lookupHealth (damageStep st ev).1 id =
            some (h0.take_damage ev.amount).1 := by
          rw [damageStep, hst]
          simp only []
          exact hid ▸ lookupHealth_updateHealth_self _ hst
        rw [hup] at hlk
        cases hlk
        by_cases hc : h0.current_health ≤ ev.amount
        · have hdead : id ∈ (damageStep st ev).2 := by
            rw [damageStep, hst]
            simp only [HealthData.take_damage, if_pos hc]
            exact hid ▸ mem_insertDead_self st.2 ev.id
          exact foldl_damageStep_dead_mono rest _ id hdead
        · rw [HealthData.take_damage, if_neg hc] at hzero
          simp only at hzero
          omega

/-- C4, counterexample: entity 7 with `{max 10, current 1}` receives two
lethal damage events in one tick and yields exactly one `DeathEvent` (the
intra-tick half of the claim holds); but a further `TakeDamageEvent` in the
*next* tick — against the same entity, now at zero health — yields another
`DeathEvent`, contradicting "no DeathEvent is ever emitted for that entity in
any subsequent tick". -/
theorem C4_counterexample :
    (health_system [] [⟨7, 5⟩, ⟨7, 3⟩] [(7, ⟨10, 1⟩)]).2 = [⟨7⟩] ∧
    (health_system [] [⟨7, 1⟩]
        (health_system [] [⟨7, 5⟩, ⟨7, 3⟩] [(7, ⟨10, 1⟩)]).1).2 = [⟨7⟩] :=
  ⟨rfl, rfl⟩

/-- C4, amended: within one tick, death events are deduplicated and sound:
the emitted `DeathEvent` list never repeats an entity (several simultaneous
lethal events yield exactly one event, via the deduplicated dead set), a
`DeathEvent` is only emitted for entities actually targeted by a
`TakeDamageEvent` that tick (so a dead entity left alone stays silent), and
every targeted entity whose record ends the damage phase at zero health gets
its `DeathEvent`. Across ticks, however, uniqueness fails: any further
`TakeDamageEvent` against an entity already at zero re-emits a `DeathEvent`
(see the counterexample), because `take_damage` reports death whenever
`current_health ≤ amount`, including from zero. -/
theorem C4_theorem (heals : List HealEvent) (damages : List TakeDamageEvent)
    (entities : List (Nat × HealthData)) :
    ((health_system heals damages entities).2.map DeathEvent.id).Nodup ∧
    (∀ e ∈ (health_system heals damages entities).2,
        e.id ∈ damages.map TakeDamageEvent.id) ∧
    (∀ (id : Nat) (h' : HealthData), id ∈ damages.map TakeDamageEvent.id →
        lookupHealth (health_system heals damages entities).1 id = some h' →
        h'.current_health = 0 →
        DeathEvent.mk id ∈ (health_system heals damages entities).2) := by
  refine ⟨?_, ?_, ?_⟩
  · show ((damages.foldl damageStep (applyHeals heals entities, [])).2.map
      DeathEvent.mk |>.map DeathEvent.id).Nodup
    rw [List.map_map]
    have : (DeathEvent.id ∘ DeathEvent.mk) = id := rfl
    rw [this, List.map_id]
    exact foldl_damageStep_dead_nodup damages _ List.nodup_nil
  · intro e he
    rcases List.mem_map.mp he with ⟨x, hx, rfl⟩
    rcases foldl_damageStep_dead_of_mem damages _ x hx with h | h
    · simp at h
    · exact h
  · intro id h' hmem hlk hzero
    exact List.mem_map.mpr
      ⟨id, foldl_damageStep_dead_of_zero damages _ id h' hmem hlk hzero, rfl⟩

/-- C4, witness: the amended per-tick guarantees on a concrete double-lethal
tick. -/
theorem C4_witness :
    ((health_system [] [⟨3, 5⟩, ⟨3, 2⟩] [(3, ⟨10, 4⟩)]).2.map DeathEvent.id).Nodup ∧
      DeathEvent.mk 3 ∈ (health_system [] [⟨3, 5⟩, ⟨3, 2⟩] [(3, ⟨10, 4⟩)]).2 :=
  ⟨(C4_theorem [] [⟨3, 5⟩, ⟨3, 2⟩] [(3, ⟨10, 4⟩)]).1,
    (C4_theorem [] [⟨3, 5⟩, ⟨3, 2⟩] [(3, ⟨10, 4⟩)]).2.2 3 ⟨10, 0⟩ (by decide) rfl rfl⟩

/- ===================== claim C5: counting infrastructure ===================== -/

theorem count_indicator {α : Type} [DecidableEq α] {l : List α} (hnd : l.Nodup) (a : α) :
    List.count a l = if a ∈ l then 1 else 0 := by
  by_cases h : a ∈ l
  · rw [if_pos h]
    exact List.count_eq_one_of_mem hnd h
  · rw [if_neg h]
    exact List.count_eq_zero_of_not_mem h

theorem sum_map_add {α : Type} (l : List α) (f g : α → Nat) :
    (l.map (fun x => f x + g x)).sum = (l.map f).sum + (l.map g).sum := by
  induction l with
  | nil => rfl
  | cons x rest ih =>
    simp only [List.map_cons, List.sum_cons, ih]
    omega

theorem count_eq_sum_ind {α : Type} [BEq α] [LawfulBEq α] [DecidableEq α]
    (l : List α) (q : α) :
    List.count q l = (l.map (fun p => if p = q then 1 else 0)).sum := by
  induction l with
  | nil => rfl
  | cons x rest ih =>
    rw [List.count_cons, List.map_cons, List.sum_cons, ih]
    by_cases h : x = q
    · simp [h]
      omega
    · simp [h]

theorem nodup_flatMap_of {α β : Type} (l : List α) (f : α → List β)
    (h1 : ∀ x ∈ l, (f x).Nodup)
    (h2 : ∀ x ∈ l, ∀ y ∈ l, x ≠ y → ∀ b ∈ f x, b ∉ f y)
    (hl : l.Nodup) : (l.flatMap f).Nodup := by
  induction l with
  | nil => exact List.nodup_nil
  | cons x rest ih =>
    rw [List.flatMap_cons, List.nodup_append]
    refine ⟨h1 x (List.mem_cons_self x rest), ?_, ?_⟩
    · exact ih (fun y hy => h1 y (List.mem_cons_of_mem x hy))
        (fun y hy z hz => h2 y (List.mem_cons_of_mem x hy) z (List.mem_cons_of_mem x hz))
        (List.nodup_cons.mp hl).2
    · intro b hb hb'
      rcases List.mem_flatMap.mp hb' with ⟨y, hy, hby⟩
      have hxy : x ≠ y := fun h => (List.nodup_cons.mp hl).1 (h ▸ hy)
      exact h2 x (List.mem_cons_self x rest) y (List.mem_cons_of_mem x hy) hxy b hb hby

theorem bordering_zones_nodup (c : Nat × Nat) : (bordering_zones c).Nodup := by
  refine List.Nodup.filterMap ?_ (by decide)
  intro d d' b hb hb'
  have hd : (c.1 + d.1, c.2 + d.2) = b := by
    simp only [Option.mem_def] at hb
    split at hb
    · cases hb
      rfl
    · cases hb
  have hd' : (c.1 + d'.1, c.2 + d'.2) = b := by
    simp only [Option.mem_def] at hb'
    split at hb'
    · cases hb'
      rfl
    · cases hb'
  have he := hd.trans hd'.symm
  rw [Prod.mk.injEq] at he
  exact Prod.ext (by omega) (by omega)

theorem others_nodup {objs : List MoveObj} (hnd : objs.Nodup) (c : Nat × Nat) :
    ((bordering_zones c).flatMap (zone_objs objs)).Nodup := by
  refine nodup_flatMap_of _ _ (fun c' _ => zone_objs_nodup hnd c') ?_
    (bordering_zones_nodup c)
  intro c1 _ c2 _ hne b hb1 hb2
  exact hne (((mem_zone_objs.mp hb1).2.2.symm).trans (mem_zone_objs.mp hb2).2.2)

theorem all_cells_nodup : all_cells.Nodup := by
  rw [all_cells]
  refine nodup_flatMap_of _ _ ?_ ?_ (List.nodup_range _)
  · intro i _
    exact (List.nodup_range _).map (fun j j' h => by
      rw [Prod.mk.injEq] at h
      exact h.2)
  · intro i _ i' _ hne b hb hb'
    rcases List.mem_map.mp hb with ⟨j, -, rfl⟩
    rcases List.mem_map.mp hb' with ⟨j', -, he⟩
    rw [Prod.mk.injEq] at he
    exact hne he.1.symm

theorem count_pair_map (x : MoveObj) (l : List MoveObj) (a b : MoveObj) :
    List.count (a, b) (l.map (fun y => (x, y))) =
      if x = a then List.count b l else 0 := by
  induction l with
  | nil => simp
  | cons y rest ih =>
    rw [List.map_cons, List.count_cons, ih]
    by_cases hx : x = a
    · subst hx
      rw [if_pos rfl, List.count_cons]
      by_cases hy : y = b
      · subst hy
        simp
      · simp [hy, Prod.ext_iff]
    · rw [if_neg hx, if_neg hx]
      simp only [Nat.add_eq_left]
      rw [if_neg]
      simp only [beq_iff_eq, Prod.mk.injEq, not_and]
      exact fun h => absurd h.symm (fun hh => hx hh.symm)

theorem count_fp_zero_fst {a : MoveObj} (y : MoveObj) {xs others : List MoveObj}
    (ha : a ∉ xs) : List.count (a, y) (forward_pairs xs others) = 0 :=
  List.count_eq_zero.mpr (fun h => ha (fst_mem_of_mem_forward_pairs h).1)

theorem count_fp_zero_snd {y : MoveObj} (x : MoveObj) {xs others : List MoveObj}
    (h1 : y ∉ xs) (h2 : y ∉ others) :
    List.count (x, y) (forward_pairs xs others) = 0 := by
  refine List.count_eq_zero.mpr (fun h => ?_)
  rcases (fst_mem_of_mem_forward_pairs h).2 with h' | h'
  · exact h1 h'
  · exact h2 h'

/-- Within one cell's sweep no unordered pair is compared twice: the two
ordered visits of `{a, b}` together happen at most once. -/
theorem count_fp_pair_le_one {a b : MoveObj} (hab : a ≠ b) {xs others : List MoveObj}
    (hnd : xs.Nodup) (hndo : others.Nodup) (hdisj : ∀ x ∈ xs, x ∉ others) :
    List.count (a, b) (forward_pairs xs others) +
      List.count (b, a) (forward_pairs xs others) ≤ 1 := by
  induction xs with
  | nil => simp [forward_pairs]
  | cons x rest ih =>
    have hnd' := List.nodup_cons.mp hnd
    have hdisj' : ∀ z ∈ rest, z ∉ others :=
      fun z hz => hdisj z (List.mem_cons_of_mem x hz)
    rw [forward_pairs, List.count_append, List.count_append,
      count_pair_map, count_pair_map]
    by_cases hxa : x = a
    · subst hxa
      rw [if_pos rfl, if_neg hab]
      have h1 : List.count (x, b) (forward_pairs rest others) = 0 :=
        count_fp_zero_fst b hnd'.1
      have h2 : List.count (b, x) (forward_pairs rest others) = 0 :=
        count_fp_zero_snd b hnd'.1 (hdisj x (List.mem_cons_self x rest))
      rw [h1, h2, List.count_append, count_indicator hnd'.2 b, count_indicator hndo b]
      by_cases hbr : b ∈ rest
      · rw [if_pos hbr, if_neg (hdisj b (List.mem_cons_of_mem x hbr))]
      · rw [if_neg hbr]
        split <;> omega
    · by_cases hxb : x = b
      · subst hxb
        rw [if_neg hxa, if_pos rfl]
        have h1 : List.count (a, x) (forward_pairs rest others) = 0 :=
          count_fp_zero_snd a hnd'.1 (hdisj x (List.mem_cons_self x rest))
        have h2 : List.count (x, a) (forward_pairs rest others) = 0 :=
          count_fp_zero_fst a hnd'.1
        rw [h1, h2, List.count_append, count_indicator hnd'.2 a, count_indicator hndo a]
        by_cases har : a ∈ rest
        · rw [if_pos har, if_neg (hdisj a (List.mem_cons_of_mem x har))]
        · rw [if_neg har]
          split <;> omega
      · rw [if_neg hxa, if_neg hxb]
        have := ih hnd'.2 hdisj'
        omega

theorem sum_le_single {α : Type} [DecidableEq α] {l : List α} (hnd : l.Nodup)
    (g : α → Nat) (z : α) (hz : ∀ c ∈ l, c ≠ z → g c = 0) :
    (l.map g).sum ≤ g z := by
  induction l with
  | nil => exact Nat.zero_le _
  | cons c rest ih =>
    have hnd' := List.nodup_cons.mp hnd
    rw [List.map_cons, List.sum_cons]
    by_cases hc : c = z
    · subst hc
      have hrest : (rest.map g).sum = 0 := by
        rw [List.sum_eq_zero_iff]
        intro n hn
        rcases List.mem_map.mp hn with ⟨c', hc', rfl⟩
        exact hz c' (List.mem_cons_of_mem c hc') (fun h => hnd'.1 (h ▸ hc'))
      omega
    · rw [hz c (List.mem_cons_self c rest) hc]
      have := ih hnd'.2 (fun c' hc' h => hz c' (List.mem_cons_of_mem c hc') h)
      omega

theorem sum_le_pair {α : Type} [DecidableEq α] {l : List α} (hnd : l.Nodup)
    (g : α → Nat) (z1 z2 : α) (hz : ∀ c ∈ l, c ≠ z1 → c ≠ z2 → g c = 0) :
    (l.map g).sum ≤ g z1 + g z2 := by
  induction l with
  | nil => exact Nat.zero_le _
  | cons c rest ih =>
    have hnd' := List.nodup_cons.mp hnd
    rw [List.map_cons, List.sum_cons]
    by_cases hc1 : c = z1
    · subst hc1
      have hrest : (rest.map g).sum ≤ g z2 :=
        sum_le_single hnd'.2 g z2
          (fun c' hc' h => hz c' (List.mem_cons_of_mem c hc')
            (fun he => hnd'.1 (he ▸ hc')) h)
      omega
    · by_cases hc2 : c = z2
      · subst hc2
        have hrest : (rest.map g).sum ≤ g z1 :=
          sum_le_single hnd'.2 g z1
            (fun c' hc' h => hz c' (List.mem_cons_of_mem c hc') h
              (fun he => hnd'.1 (he ▸ hc')))
        omega
      · rw [hz c (List.mem_cons_self c rest) hc1 hc2]
        have := ih hnd'.2 (fun c' hc' h1 h2 => hz c' (List.mem_cons_of_mem c hc') h1 h2)
        omega

/-- The broad phase visits each unordered pair (in either orientation) at
most once over the whole grid sweep. -/
theorem count_visited_le_one {objs : List MoveObj} (hnd : objs.Nodup)
    {a b : MoveObj} (hab : a ≠ b) :
    List.count (a, b) (visited_pairs objs) +
      List.count (b, a) (visited_pairs objs) ≤ 1 := by
  have hcnt : ∀ q : MoveObj × MoveObj, List.count q (visited_pairs objs) =
      (all_cells.map (fun c => List.count q (cell_pairs objs c))).sum := by
    intro q
    rw [visited_pairs, List.count_flatMap]
    rfl
  rw [hcnt, hcnt, ← sum_map_add]
  set za := get_zone (current_position a) with hza
  set zb := get_zone (current_position b) with hzb
  have hnot_fst : ∀ c : Nat × Nat, c ≠ za → a ∉ zone_objs objs c := by
    intro c hc hmem
    exact hc ((mem_zone_objs.mp hmem).2.2).symm
  have hnot_fst' : ∀ c : Nat × Nat, c ≠ zb → b ∉ zone_objs objs c := by
    intro c hc hmem
    exact hc ((mem_zone_objs.mp hmem).2.2).symm
  have hnot_others : ∀ c : Nat × Nat, zb ∉ bordering_zones c →
      b ∉ (bordering_zones c).flatMap (zone_objs objs) := by
    intro c hc hmem
    rcases List.mem_flatMap.mp hmem with ⟨c', hc', hb'⟩
    refine hc ?_
    rw [hzb, (mem_zone_objs.mp hb').2.2]
    exact hc'
  have hnot_others' : ∀ c : Nat × Nat, za ∉ bordering_zones c →
      a ∉ (bordering_zones c).flatMap (zone_objs objs) := by
    intro c hc hmem
    rcases List.mem_flatMap.mp hmem with ⟨c', hc', ha'⟩
    refine hc ?_
    rw [hza, (mem_zone_objs.mp ha').2.2]
    exact hc'
  have hcell_le : ∀ c : Nat × Nat,
      List.count (a, b) (cell_pairs objs c) + List.count (b, a) (cell_pairs objs c) ≤ 1 :=
    fun c => count_fp_pair_le_one hab (zone_objs_nodup hnd c) (others_nodup hnd c)
      (fun x hx => zone_objs_disjoint_others hx)
  have hsupp : ∀ c ∈ all_cells, c ≠ za → c ≠ zb →
      List.count (a, b) (cell_pairs objs c) + List.count (b, a) (cell_pairs objs c) = 0 := by
    intro c _ h1 h2
    rw [cell_pairs, count_fp_zero_fst b (hnot_fst c h1),
      count_fp_zero_fst a (hnot_fst' c h2)]
  by_cases hzz : za = zb
  · refine le_trans (sum_le_single all_cells_nodup _ za ?_) (hcell_le za)
    intro c hc h1
    exact hsupp c hc h1 (hzz ▸ h1)
  · refine le_trans (sum_le_pair all_cells_nodup _ za zb hsupp) ?_
    by_cases hbord : zb ∈ bordering_zones za
    · have hzbzero :
          List.count (a, b) (cell_pairs objs zb) + List.count (b, a) (cell_pairs objs zb) = 0 := by
        rw [cell_pairs, count_fp_zero_fst b (hnot_fst zb (fun h => hzz h.symm)),
          count_fp_zero_snd b (hnot_fst zb (fun h => hzz h.symm))
            (hnot_others' zb (not_both_bordering hbord))]
      rw [hzbzero]
      simpa using hcell_le za
    · have hzazero :
          List.count (a, b) (cell_pairs objs za) + List.count (b, a) (cell_pairs objs za) = 0 := by
        rw [cell_pairs, count_fp_zero_snd a (hnot_fst' za hzz) (hnot_others za hbord),
          count_fp_zero_fst a (hnot_fst' za hzz)]
      rw [hzazero]
      simpa using hcell_le zb

/-- Each directional event of a detected pair occurs in the event stream
exactly as often as the broad phase visits the pair (in either orientation). -/
theorem count_events_eq {dt : ℚ} {objs : List MoveObj} {a b : MoveObj}
    (hids : (objs.map MoveObj.id).Nodup) (ha : a ∈ objs) (hb : b ∈ objs) (hne : a ≠ b)
    (hdet : collision_detected dt a b = true) {ev : CollisionEvent}
    (hev : ev = ⟨a.id, a.otype, b.id, b.otype⟩ ∨ ev = ⟨b.id, b.otype, a.id, a.otype⟩) :
    List.count ev (collision_events dt objs) =
      List.count (a, b) (visited_pairs objs) +
        List.count (b, a) (visited_pairs objs) := by
  have hidne : a.id ≠ b.id := fun h => hne (id_inj hids ha hb h)
  have hdet' : collision_detected dt b a = true := by
    rw [collision_detected_symm]
    exact hdet
  rw [collision_events, List.count_flatMap]
  have hpt : ∀ p ∈ visited_pairs objs,
      (List.count ev ∘ fun p : MoveObj × MoveObj =>
        if collision_detected dt p.1 p.2 then pair_events p.1 p.2 else []) p =
      (if p = (a, b) then 1 else 0) + (if p = (b, a) then 1 else 0) := by
    intro p hp
    have hpm := mem_objs_of_mem_visited_pairs hp
    simp only [Function.comp_apply]
    by_cases h1 : p = (a, b)
    · subst h1
      rw [if_pos hdet]
      rcases hev with rfl | rfl
      · simp [pair_events, List.count_cons, hidne, Ne.symm hidne, hne, Ne.symm hne,
          Prod.ext_iff]
      · simp [pair_events, List.count_cons, hidne, Ne.symm hidne, hne, Ne.symm hne,
          Prod.ext_iff]
    · by_cases h2 : p = (b, a)
      · subst h2
        rw [if_pos hdet']
        rcases hev with rfl | rfl
        · simp [pair_events, List.count_cons, hidne, Ne.symm hidne, hne, Ne.symm hne,
            Prod.ext_iff]
        · simp [pair_events, List.count_cons, hidne, Ne.symm hidne, hne, Ne.symm hne,
            Prod.ext_iff]
      · have hne1 : (⟨p.1.id, p.1.otype, p.2.id, p.2.otype⟩ : CollisionEvent) ≠ ev := by
          intro he
          rcases hev with rfl | rfl
          · rw [CollisionEvent.mk.injEq] at he
            obtain ⟨e1, -, e3, -⟩ := he
            exact h1 (Prod.ext (id_inj hids hpm.1.1 ha e1) (id_inj hids hpm.2.1 hb e3))
          · rw [CollisionEvent.mk.injEq] at he
            obtain ⟨e1, -, e3, -⟩ := he
            exact h2 (Prod.ext (id_inj hids hpm.1.1 hb e1) (id_inj hids hpm.2.1 ha e3))
        have hne2 : (⟨p.2.id, p.2.otype, p.1.id, p.1.otype⟩ : CollisionEvent) ≠ ev := by
          intro he
          rcases hev with rfl | rfl
          · rw [CollisionEvent.mk.injEq] at he
            obtain ⟨e1, -, e3, -⟩ := he
            exact h2 (Prod.ext (id_inj hids hpm.1.1 hb e3) (id_inj hids hpm.2.1 ha e1))
          · rw [CollisionEvent.mk.injEq] at he
            obtain ⟨e1, -, e3, -⟩ := he
            exact h1 (Prod.ext (id_inj hids hpm.1.1 ha e3) (id_inj hids hpm.2.1 hb e1))
        rw [if_neg h1, if_neg h2]
        split
        · simp [pair_events, List.count_cons, hne1, hne2]
        · simp
  rw [List.map_congr_left hpt, sum_map_add, ← count_eq_sum_ind, ← count_eq_sum_ind]

/- ===================== claim C5 ===================== -/

/-- C5: for every overlap the detector detects — a visited pair with a
non-ignored type pair whose projected rectangles overlap (`collision_detected`)
— the tick's event stream contains the `A→B` directional event exactly once
and the `B→A` directional event exactly once, each carrying both entities'
`MoveObjectType`s; no detected overlap yields fewer or more than two events. -/
theorem C5_theorem (dt : ℚ) (objs : List MoveObj) (a b : MoveObj)
    (hids : (objs.map MoveObj.id).Nodup)
    (hvis : (a, b) ∈ visited_pairs objs)
    (hdet : collision_detected dt a b = true) :
    List.count (⟨a.id, a.otype, b.id, b.otype⟩ : CollisionEvent)
        (collision_events dt objs) = 1 ∧
      List.count (⟨b.id, b.otype, a.id, a.otype⟩ : CollisionEvent)
        (collision_events dt objs) = 1 := by
  have hnd : objs.Nodup := List.Nodup.of_map MoveObj.id hids
  have hne : a ≠ b := visited_pairs_ne hnd hvis
  have hmem := mem_objs_of_mem_visited_pairs hvis
  have hge : 0 < List.count (a, b) (visited_pairs objs) := List.count_pos_iff.mpr hvis
  have hle := count_visited_le_one hnd hne
  have hsum : List.count (a, b) (visited_pairs objs) +
      List.count (b, a) (visited_pairs objs) = 1 := by omega
  constructor
  · rw [count_events_eq hids hmem.1.1 hmem.2.1 hne hdet (Or.inl rfl), hsum]
  · rw [count_events_eq hids hmem.1.1 hmem.2.1 hne hdet (Or.inr rfl), hsum]

theorem fut_c5WA : future_position (1 / 10) c5WA = Vec2.mk 0 (1 / 2) := by
  simp only [future_position, current_position, Vec3.truncate, c5WA, Vec2.add, Vec2.scale,
    Vec2.mk.injEq]
  norm_num

theorem detect_c5W : collision_detected (1 / 10) c5WA c5WB = true := by
  have hcol : Hitbox.check_collision c5WA.hitbox (future_position (1 / 10) c5WA)
      c5WB.hitbox (future_position (1 / 10) c5WB) = some true := by
    rw [fut_c5WA]
    simp only [c5WA, c5WB, future_position, current_position, Vec3.truncate,
      Hitbox.check_collision, Option.some.injEq]
    rw [collide_eq_true_iff]
    norm_num
  rw [collision_detected, hcol]
  rfl

/-- C5, witness: exactly-two-events on a concrete detected overlap between a
`PlayerBullet` and an `Enemy` in the same grid cell. -/
theorem C5_witness :
    ([c5WA, c5WB].map MoveObj.id).Nodup ∧
    (c5WA, c5WB) ∈ visited_pairs [c5WA, c5WB] ∧
    collision_detected (1 / 10) c5WA c5WB = true ∧
    List.count (⟨c5WA.id, c5WA.otype, c5WB.id, c5WB.otype⟩ : CollisionEvent)
        (collision_events (1 / 10) [c5WA, c5WB]) = 1 ∧
    List.count (⟨c5WB.id, c5WB.otype, c5WA.id, c5WA.otype⟩ : CollisionEvent)
        (collision_events (1 / 10) [c5WA, c5WB]) = 1 := by
  have hids : ([c5WA, c5WB].map MoveObj.id).Nodup := by simp [c5WA, c5WB]
  have hvis : (c5WA, c5WB) ∈ visited_pairs [c5WA, c5WB] :=
    mem_visited_two_same_cell c5WA c5WB (5, 3) zone_c5WA zone_c5WB
      (by simp [c5WA]) (by simp [c5WB]) cell53_mem_all_cells
  have hcnt := C5_theorem (1 / 10) [c5WA, c5WB] c5WA c5WB hids hvis detect_c5W
  exact ⟨hids, hvis, detect_c5W, hcnt.1, hcnt.2⟩

end Rosiak
